import Mathlib

/-!
Verification development for the Amazon settlement reconciliation engine
(`eseller_suite/.../amazon_process_settlement_report.py`).

Modelling conventions (shallow embedding):
* Python floats are modelled as exact rationals (`ℚ`); where the source
  rounds (`round(x, 2)`) the model rounds explicitly.  The tie-breaking rule
  of Python's banker rounding differs from Mathlib's `round` at exact ties;
  every theorem proved here is insensitive to the tie rule.
* Python dicts are modelled as association lists in insertion order, or as
  key-sorted association lists where dict equality is compared.
* Database lookups (`frappe.db.get_value` etc.) that only decorate a result
  are passed in as oracle functions; stateful passes get an explicit ledger
  state.
* Fallible code returns `Option`/`Except`: `none`/`.error` models a raised
  exception, `.ok none` models Python's `return None`.
-/

namespace AmazonSettlement

/-- Python `str.lower()` (ASCII case folding, as used by the settlement code).
Implemented over the character list so that it evaluates by kernel reduction. -/
def pyLower (s : String) : String := String.mk (s.data.map Char.toLower)

/-- Python `str.upper()` (ASCII case folding). -/
def pyUpper (s : String) : String := String.mk (s.data.map Char.toUpper)

/-- Strip leading and trailing whitespace from a character list. -/
def stripChars (cs : List Char) : List Char :=
  ((cs.dropWhile Char.isWhitespace).reverse.dropWhile Char.isWhitespace).reverse

/-- Python `str.strip()` (whitespace removal at both ends). -/
def pyStrip (s : String) : String := String.mk (stripChars s.data)

/-- Does the character list start with the given pattern? -/
def startsWithChars : List Char → List Char → Bool
  | _, [] => true
  | [], _ :: _ => false
  | c :: cs, p :: ps => c = p && startsWithChars cs ps

/-- Does the character list contain the pattern as a contiguous sublist? -/
def containsChars (pat : List Char) : List Char → Bool
  | [] => startsWithChars [] pat
  | c :: t => startsWithChars (c :: t) pat || containsChars pat t

/-- Python `sub in s` for strings: substring containment. -/
def strContains (s pat : String) : Bool := containsChars pat.toList s.toList

/--
One normalized settlement row, as produced by `fetch_settlement_rows`:
fields mirror the lower-cased CSV keys `transaction-type`, `order-id`,
`amount-description`, `amount-type`, `amount` (already coalesced to a number),
`currency`, `marketplace-name`, `merchant-order-id`.
-/
structure SRow where
  transactionType : String := ""
  orderId : String := ""
  amountDescription : String := ""
  amountType : String := ""
  amount : ℚ := 0
  currency : String := ""
  marketplaceName : String := ""
  merchantOrderId : String := ""
  deriving Repr, DecidableEq, Inhabited

/-- `(r.get("transaction-type") or "").strip().lower()` as used throughout `build_je`. -/
def rowTType (r : SRow) : String := pyLower (pyStrip r.transactionType)

/-- `(r.get("amount-description") or "").strip().lower()` as used in the net-row scan. -/
def rowDescLower (r : SRow) : String := pyLower (pyStrip r.amountDescription)

/--
The net-transfer-row test of `build_je` (source lines 737-746): the row must
have an empty (stripped) order id and either transaction type `transfer`,
description `amazon proceeds` or `transfer`, or both fields empty.
-/
def looks_like_net (r : SRow) : Bool :=
  ((rowTType r = "transfer")
      || (rowDescLower r = "amazon proceeds" || rowDescLower r = "transfer")
      || (rowTType r = "" && rowDescLower r = ""))
    && pyStrip r.orderId = ""

/--
The scan of `build_je` for the net transfer row: the first row in report
order that looks like the net line and has `abs(amount) > 0.0001`.
-/
def find_transfer_row (rows : List SRow) : Option SRow :=
  rows.find? (fun r => looks_like_net r && decide (|r.amount| > mkRat 1 10000))

/-- `(r["currency"] or "USD").upper()` applied to the chosen transfer row. -/
def settlement_ccy_of (r : SRow) : String :=
  pyUpper (if r.currency = "" then "USD" else r.currency)

/-- `SALES_TYPES = {"order", "order_retrocharge"}` (source line 766). -/
def SALES_TYPES : List String := ["order", "order_retrocharge"]

/-- `REFUND_TYPES = {"refund"}` (source line 767). -/
def REFUND_TYPES : List String := ["refund"]

/-- Membership test of a row's transaction type in `SALES_TYPES ∪ REFUND_TYPES`. -/
def isOrderRow (r : SRow) : Bool :=
  (SALES_TYPES ++ REFUND_TYPES).contains (rowTType r) && pyStrip r.orderId ≠ ""

/-- Append a row to the group of key `k`, creating the group at the end if new
(`defaultdict(list)` semantics, insertion-ordered). -/
def addToGroup (gs : List (String × List SRow)) (k : String) (r : SRow) :
    List (String × List SRow) :=
  match gs with
  | [] => [(k, [r])]
  | (k', g) :: t => if k' = k then (k', g ++ [r]) :: t else (k', g) :: addToGroup t k r

/-- `order_groups` of `build_je` (source lines 768-775): rows whose type is in
`SALES_TYPES ∪ REFUND_TYPES` and whose stripped order id is nonempty, grouped
by stripped order id. -/
def order_groups (rows : List SRow) : List (String × List SRow) :=
  rows.foldl (fun gs r => if isOrderRow r then addToGroup gs (pyStrip r.orderId) r else gs) []

/-- Sum of amounts of the rows of a group whose type is in `SALES_TYPES`. -/
def salesSumOf (g : List SRow) : ℚ :=
  ((g.filter (fun r => SALES_TYPES.contains (rowTType r))).map SRow.amount).sum

/-- Negated sum of amounts of the rows of a group whose type is in `REFUND_TYPES`
(the positive refund magnitude of the source, line 783). -/
def refundSumOf (g : List SRow) : ℚ :=
  -((g.filter (fun r => REFUND_TYPES.contains (rowTType r))).map SRow.amount).sum

/-- `sales_totals` of `build_je` (source lines 781-786): per order, the raw
signed sum over `SALES_TYPES`, kept only when its magnitude is at least 0.01. -/
def sales_totals (rows : List SRow) : List (String × ℚ) :=
  (order_groups rows).filterMap
    (fun og => if |salesSumOf og.2| ≥ mkRat 1 100 then some (og.1, salesSumOf og.2) else none)

/-- `refund_totals` of `build_je` (source lines 783-789): per order, the negated
sum over `REFUND_TYPES`, kept only when its magnitude is at least 0.01. -/
def refund_totals (rows : List SRow) : List (String × ℚ) :=
  (order_groups rows).filterMap
    (fun og => if |refundSumOf og.2| ≥ mkRat 1 100 then some (og.1, refundSumOf og.2) else none)

/-- Association-list lookup by key (first match). -/
def alookup {β : Type} (k : String) (l : List (String × β)) : Option β :=
  (l.find? (fun kv => kv.1 = k)).map Prod.snd

/-- `REIMBURSEMENT_WHITE_LIST` (source lines 799-811). -/
def REIMBURSEMENT_WHITE_LIST : List String :=
  ["REVERSAL_REIMBURSEMENT", "FREE_REPLACEMENT_REFUND_ITEMS", "WAREHOUSE_DAMAGE",
   "WAREHOUSE_LOST", "COMPENSATED_CLAWBACK", "MISSING_FROM_INBOUND_CLAWBACK",
   "REFUNDCOMMISSION", "SHIPPINGCHARGEBACK", "MISSING_FROM_INBOUND"]

/--
The row filter of the reimbursement sum (source lines 816-823).  Python parses
`A or B or C and D` as `A ∨ B ∨ (C ∧ D)` (`and` binds tighter than `or`), so
the positivity test `float(r["amount"]) > 0` applies only to the amount-type
branch; `&&`/`||` in Lean have the same relative precedence, and the grouping
is written out explicitly here.
-/
def reimbFilter (r : SRow) : Bool :=
  let desc := pyUpper (pyStrip r.amountDescription)
  REIMBURSEMENT_WHITE_LIST.contains desc
    || strContains desc "REIMBURSEMENT"
    || (strContains (pyUpper (pyStrip r.amountType)) "REIMBURSEMENT"
        && decide ((0 : ℚ) < r.amount))

/-- `reimb_native` of `build_je` (source lines 816-823). -/
def reimb_native (rows : List SRow) : ℚ :=
  ((rows.filter reimbFilter).map SRow.amount).sum

/-- Keys of `FEE_ACCOUNT_MAP` (source lines 827-836). -/
def FEE_KEYS : List String :=
  ["STORAGE FEE", "STORAGERENEWALBILLING", "FBA INBOUND PLACEMENT SERVICE FEE",
   "INBOUND TRANSPORTATION FEE", "REMOVALCOMPLETE", "COMPENSATED_CLAWBACK",
   "DISPOSALCOMPLETE", "LIQUIDATIONSBROKERAGEFEE"]

/-- Accumulate an amount into a bucket keyed by description
(`defaultdict(float)` semantics, insertion-ordered). -/
def addFee (fs : List (String × ℚ)) (k : String) (v : ℚ) : List (String × ℚ) :=
  match fs with
  | [] => [(k, v)]
  | (k', v') :: t => if k' = k then (k', v' + v) :: t else (k', v') :: addFee t k v

/-- `special_fee_native` of `build_je` (source lines 841-850): negative,
order-id-free rows whose upper-cased description is a fee-map key, bucketed by
description, stored as positive magnitudes. -/
def special_fee_native (rows : List SRow) : List (String × ℚ) :=
  rows.foldl
    (fun fs r =>
      if r.amount < 0 && pyStrip r.orderId = ""
          && FEE_KEYS.contains (pyUpper (pyStrip r.amountDescription)) then
        addFee fs (pyUpper (pyStrip r.amountDescription)) |r.amount|
      else fs)
    []

/-- Kernel-computable floor of a rational (`Rat.floor`), used to keep the
embedding executable. -/
def qfloor (q : ℚ) : ℤ := q.num / q.den

theorem qfloor_eq_floor (q : ℚ) : qfloor q = ⌊q⌋ := (Rat.floor_def).symm

/-- Python `round(x, 2)` (two-decimal rounding; see tie-rule note in the
module docstring).  Written with `mkRat`/`qfloor` so that it evaluates by
kernel reduction; `round2_eq` relates it to Mathlib's `round`. -/
def round2 (x : ℚ) : ℚ := mkRat (qfloor (100 * x + mkRat 1 2)) 100

theorem mkRat_half : (mkRat 1 2 : ℚ) = 1/2 := by
  norm_num [Rat.mkRat_eq_divInt, Rat.divInt_eq_div]

theorem mkRat_hundredth : (mkRat 1 100 : ℚ) = 1/100 := by
  norm_num [Rat.mkRat_eq_divInt, Rat.divInt_eq_div]

theorem mkRat_nine_thousandths : (mkRat 9 1000 : ℚ) = 9/1000 := by
  norm_num [Rat.mkRat_eq_divInt, Rat.divInt_eq_div]

theorem mkRat_ten_thousandth : (mkRat 1 10000 : ℚ) = 1/10000 := by
  norm_num [Rat.mkRat_eq_divInt, Rat.divInt_eq_div]

theorem round2_eq (x : ℚ) : round2 x = ((round (100 * x) : ℤ) : ℚ) / 100 := by
  rw [round2, round_eq, qfloor_eq_floor, mkRat_half, Rat.mkRat_eq_divInt, Rat.divInt_eq_div]
  norm_num

/--
One Journal Entry Account line as assembled by `build_je`.  Absent dict keys
are modelled by the defaults (`flt` of an absent key is 0, `exchange_rate`
defaults to 1 in the balance computation of source lines 1004-1005).
-/
structure JELine where
  account : String := ""
  exchangeRate : ℚ := 1
  debitInAccountCurrency : ℚ := 0
  creditInAccountCurrency : ℚ := 0
  debit : ℚ := 0
  credit : ℚ := 0
  partyType : String := ""
  party : String := ""
  amazonOrderId : String := ""
  referenceType : String := ""
  referenceName : String := ""
  userRemark : String := ""
  customMerchantOrderId : String := ""
  isAdvance : Bool := false
  deriving Repr, DecidableEq, Inhabited

/-- The Journal Entry document built by `build_je` (only the fields the claims
mention are retained). -/
structure JournalEntry where
  chequeNo : String := ""
  accounts : List JELine := []
  deriving Repr, DecidableEq, Inhabited

/-- One currency's triple from `get_currency_accounts_map` (source lines 28-45). -/
structure CcyAccounts where
  clearing : String := ""
  debtors : String := ""
  customer : String := ""
  deriving Repr, DecidableEq

/--
The Amazon SP API settings fields consumed by `build_je`.  `feeAccount`
stands for the eight `custom_amazon_*_account` fields of `FEE_ACCOUNT_MAP`,
keyed by the map's description strings.
-/
structure Settings where
  usd : CcyAccounts := {}
  cad : CcyAccounts := {}
  mxn : CcyAccounts := {}
  reimbursementsAccount : String := ""
  miscFeesAccount : String := ""
  roundOffAccount : String := ""
  feeAccount : String → String := fun _ => ""

/-- Is the currency one of the keys of `get_currency_accounts_map`? -/
def knownCcy (c : String) : Bool := c = "USD" || c = "CAD" || c = "MXN"

/-- The triple stored under a known currency key. -/
def ccyAccounts (s : Settings) (c : String) : CcyAccounts :=
  if c = "USD" then s.usd else if c = "CAD" then s.cad else s.mxn

/-- `get_clearing_account` (source lines 161-163): unknown currencies fall back
to the USD entry via `map.get(ccy, map.get("USD", {}))`. -/
def get_clearing_account (s : Settings) (c : String) : String :=
  (if knownCcy c then ccyAccounts s c else s.usd).clearing

/-- `get_debtors_account` (source lines 165-167), same fallback as clearing. -/
def get_debtors_account (s : Settings) (c : String) : String :=
  (if knownCcy c then ccyAccounts s c else s.usd).debtors

/--
Oracles abstracting the database reads and the credit-note side effect used
while decorating first-pass lines.  `fxRate` is `fx_rate settlement_ccy post_dt`
(`none` models the raised missing-rate error; `fx_rate` itself is modelled and
verified separately).  `createCreditNote si_name order_id` abstracts
`create_credit_note_for_refund`, which returns the created/existing credit
note name or `None`; it never changes the amounts of the line being built.
-/
structure BuildOracles where
  fxRate : String → Option ℚ
  getSalesInvoice : String → Option String
  getOpenSalesInvoice : String → Option String
  createCreditNote : String → String → Option String

/-- Raised exceptions that can escape `build_je` in the modelled fragment. -/
inductive BuildError where
  /-- `fx_rate` raised its operator-facing missing-rate error. -/
  | fxMissing
  /-- `map[settlement_ccy]` at source line 901 raises `KeyError` for a
  settlement currency outside USD/CAD/MXN. -/
  | unknownCurrency
  deriving Repr, DecidableEq

/--
`stamp_marketplace_fields` (source lines 408-415) as applied to a line under
construction.  At both call sites in `build_je` the line has no
`reference_name` key yet, so the non-refund remark branch applies; the `cr`
argument is passed `{}` and discarded.
-/
def stamp_marketplace_fields (dr : JELine) (marketplaceName merchantOrderId : String) :
    JELine :=
  if marketplaceName = "non-amazon us" then
    { dr with
      customMerchantOrderId := String.mk (merchantOrderId.toList.filter Char.isDigit),
      userRemark := "Multi-Channel Fulfillment (MCF) Order" }
  else if marketplaceName = "amazon.com" then
    { dr with customMerchantOrderId := "", userRemark := "Fulfillment by Amazon (FBA) Order" }
  else dr

/-- `(marketplace-name, merchant-order-id)` of the first row of an order's
group (source lines 904-911), or empty strings when the group is missing. -/
def groupMeta (groups : List (String × List SRow)) (orderId : String) : String × String :=
  match (alookup orderId groups).bind List.head? with
  | some r => (pyLower (pyStrip r.marketplaceName), pyStrip r.merchantOrderId)
  | none => ("", "")

/-- One sales-pass AR line of `build_je` (source lines 903-928). -/
def mkSalesLine (oc : BuildOracles) (groups : List (String × List SRow))
    (debtorsAccount customer : String) (rate : ℚ) (entry : String × ℚ) : JELine :=
  let meta := groupMeta groups entry.1
  let base : JELine :=
    { account := debtorsAccount, exchangeRate := rate, partyType := "Customer",
      party := customer, amazonOrderId := entry.1 }
  let stamped := stamp_marketplace_fields base meta.1 meta.2
  let refd :=
    match oc.getSalesInvoice entry.1 with
    | some siName =>
        if (oc.getOpenSalesInvoice entry.1).isSome then
          { stamped with referenceType := "Sales Invoice", referenceName := siName }
        else stamped
    | none => stamped
  { refd with creditInAccountCurrency := entry.2 }

/-- One refund-pass AR line of `build_je` (source lines 930-960). -/
def mkRefundLine (oc : BuildOracles) (groups : List (String × List SRow))
    (debtorsAccount customer : String) (rate : ℚ) (entry : String × ℚ) : JELine :=
  let meta := groupMeta groups entry.1
  let orderRows := (alookup entry.1 groups).getD []
  let refundRows := orderRows.filter (fun r => REFUND_TYPES.contains (rowTType r))
  let cnName :=
    match oc.getSalesInvoice entry.1 with
    | some siName => if refundRows ≠ [] then oc.createCreditNote siName entry.1 else none
    | none => none
  let base : JELine :=
    { account := debtorsAccount, exchangeRate := rate, partyType := "Customer",
      party := customer, amazonOrderId := entry.1 }
  let stamped := stamp_marketplace_fields base meta.1 meta.2
  let refd :=
    match cnName with
    | some cn => { stamped with referenceType := "Sales Invoice", referenceName := cn }
    | none => stamped
  { refd with debitInAccountCurrency := entry.2 }

/-- Base-currency debit total `sum(debit_in_account_currency * exchange_rate)`
(source line 1004). -/
def base_debit_total (ls : List JELine) : ℚ :=
  (ls.map (fun l => l.debitInAccountCurrency * l.exchangeRate)).sum

/-- Base-currency credit total `sum(credit_in_account_currency * exchange_rate)`
(source line 1005). -/
def base_credit_total (ls : List JELine) : ℚ :=
  (ls.map (fun l => l.creditInAccountCurrency * l.exchangeRate)).sum

/--
The rounding step of `build_je` (source lines 1002-1025): compute the rounded
base-currency imbalance over `non_ar_lines + ar_lines`; when nonzero, append a
rounding line (exchange rate 1) to the non-AR block; the final line list is
the non-AR block followed by the AR block.
-/
def add_rounding (roundAccount : String) (nonAr ar : List JELine) : List JELine :=
  let allLines := nonAr ++ ar
  let difference := round2 (base_debit_total allLines - base_credit_total allLines)
  if difference = 0 then nonAr ++ ar
  else
    let rl : JELine :=
      if 0 < difference then
        { account := roundAccount, exchangeRate := 1, userRemark := "Rounding adjustment",
          creditInAccountCurrency := |difference|, credit := |difference| }
      else
        { account := roundAccount, exchangeRate := 1, userRemark := "Rounding adjustment",
          debitInAccountCurrency := |difference|, debit := |difference| }
    (nonAr ++ [rl]) ++ ar

/-- The effective base-currency polarity amounts read by
`_flag_unallocated_as_advance` (source lines 1087-1088): the company-currency
figure when nonzero, else the account-currency one. -/
def effectiveDebit (l : JELine) : ℚ :=
  if l.debit ≠ 0 then l.debit else l.debitInAccountCurrency

/-- Credit analogue of `effectiveDebit`. -/
def effectiveCredit (l : JELine) : ℚ :=
  if l.credit ≠ 0 then l.credit else l.creditInAccountCurrency

/-- `_flag_unallocated_as_advance` applied to one line (source lines 1066-1107);
only the `is_advance` flag is changed. -/
def flagLine (row : JELine) : JELine :=
  let partyType := pyStrip row.partyType
  let party := pyStrip row.party
  let hasParty := partyType ≠ "" && party ≠ ""
  let hasRef := row.referenceName ≠ ""
  if !hasParty || hasRef then { row with isAdvance := false }
  else if partyType = "Customer" then
    { row with isAdvance := decide (0 < effectiveCredit row) }
  else if partyType = "Supplier" then
    { row with isAdvance := decide (0 < effectiveDebit row) }
  else { row with isAdvance := false }

/-- `_flag_unallocated_as_advance` over the whole line list. -/
def flag_unallocated_as_advance (ls : List JELine) : List JELine := ls.map flagLine

/-- The clearing-account line (source lines 879-891): debit for a positive
net transfer, credit for a negative one. -/
def clearing_line (st : Settings) (settlementCcy : String) (rate nativeTotal : ℚ) : JELine :=
  if 0 < nativeTotal then
    { account := get_clearing_account st settlementCcy, exchangeRate := rate,
      debitInAccountCurrency := nativeTotal }
  else
    { account := get_clearing_account st settlementCcy, exchangeRate := rate,
      creditInAccountCurrency := -nativeTotal }

/--
The non-AR block of first-pass lines before rounding (source lines 874-998):
clearing line, optional reimbursement line, special-fee lines, optional
miscellaneous-fees line.
-/
def non_ar_lines_pre (st : Settings) (settlementCcy : String) (rate : ℚ)
    (nativeTotal reimbUsd feesUsd : ℚ) (specialFeeUsd : List (String × ℚ)) : List JELine :=
  let reimbLines : List JELine :=
    if |reimbUsd| ≥ mkRat 1 100 then
      if 0 < reimbUsd then
        [{ account := st.reimbursementsAccount, exchangeRate := 1,
           creditInAccountCurrency := reimbUsd }]
      else
        [{ account := st.reimbursementsAccount, exchangeRate := 1,
           debitInAccountCurrency := -reimbUsd }]
    else []
  let feeLines : List JELine :=
    (specialFeeUsd.filter (fun dv => ¬ dv.2 < mkRat 9 1000)).map
      (fun dv =>
        { account := st.feeAccount dv.1, debitInAccountCurrency := dv.2,
          exchangeRate := 1, userRemark := dv.1 })
  let miscLines : List JELine :=
    if |feesUsd| ≥ mkRat 1 100 then
      if 0 < feesUsd then
        [{ account := st.miscFeesAccount, exchangeRate := 1,
           debitInAccountCurrency := feesUsd }]
      else
        [{ account := st.miscFeesAccount, exchangeRate := 1,
           creditInAccountCurrency := -feesUsd }]
    else []
  clearing_line st settlementCcy rate nativeTotal :: (reimbLines ++ feeLines ++ miscLines)

/-- The full first-pass line list of `build_je` for a given transfer row and
exchange rate: non-AR block, AR block, rounding, advance flagging. -/
def build_je_lines (oc : BuildOracles) (st : Settings) (rows : List SRow)
    (tr : SRow) (rate : ℚ) : List JELine :=
  let settlementCcy := settlement_ccy_of tr
  let nativeTotal := tr.amount
  let groups := order_groups rows
  let sTotals := sales_totals rows
  let rTotals := refund_totals rows
  let totalSalesNative := (sTotals.map Prod.snd).sum
  let totalRefundNative := (rTotals.map Prod.snd).sum
  let orderNetNative := totalSalesNative - totalRefundNative
  let reimbNative := reimb_native rows
  let specialFeeUsd := (special_fee_native rows).map (fun dv => (dv.1, round2 (dv.2 * rate)))
  let specialFeeTotalUsd := (specialFeeUsd.map Prod.snd).sum
  let usdTotal := round2 (nativeTotal * rate)
  let orderNetUsd := round2 (orderNetNative * rate)
  let reimbUsd := round2 (reimbNative * rate)
  let feesUsd := round2 ((orderNetUsd + reimbUsd) - (usdTotal + specialFeeTotalUsd))
  let debtorsAccount := get_debtors_account st settlementCcy
  let customer := (ccyAccounts st settlementCcy).customer
  let arLines :=
    sTotals.map (mkSalesLine oc groups debtorsAccount customer rate)
      ++ rTotals.map (mkRefundLine oc groups debtorsAccount customer rate)
  let nonAr := non_ar_lines_pre st settlementCcy rate nativeTotal reimbUsd feesUsd specialFeeUsd
  flag_unallocated_as_advance (add_rounding st.roundOffAccount nonAr arLines)

/--
`build_je` (source lines 676-1048).  `.ok none` is Python's `return None`
(no transfer row, or the non-first-pass branch, whose late-allocation side
effect is modelled separately by `allocate_late_documents_for_settlement`);
`.error` is a raised exception.  The `KeyError` check for the customer map is
hoisted before line assembly; in the source the exception fires at line 901
and discards the partially built lists, so the observable result agrees.
-/
def build_je (oc : BuildOracles) (st : Settings) (rptId : String) (rows : List SRow)
    (firstPass : Bool) : Except BuildError (Option JournalEntry) :=
  match find_transfer_row rows with
  | none => .ok none
  | some tr =>
    if firstPass then
      match oc.fxRate (settlement_ccy_of tr) with
      | none => .error .fxMissing
      | some rate =>
        if knownCcy (settlement_ccy_of tr) then
          .ok (some { chequeNo := rptId, accounts := build_je_lines oc st rows tr rate })
        else .error .unknownCurrency
    else .ok none

/-! ### Generic lemmas about the line-building stages -/

theorem base_debit_total_nil : base_debit_total [] = 0 := rfl

theorem base_debit_total_cons (l : JELine) (ls : List JELine) :
    base_debit_total (l :: ls)
      = l.debitInAccountCurrency * l.exchangeRate + base_debit_total ls := by
  simp [base_debit_total]

theorem base_credit_total_nil : base_credit_total [] = 0 := rfl

theorem base_credit_total_cons (l : JELine) (ls : List JELine) :
    base_credit_total (l :: ls)
      = l.creditInAccountCurrency * l.exchangeRate + base_credit_total ls := by
  simp [base_credit_total]

theorem base_debit_total_append (a b : List JELine) :
    base_debit_total (a ++ b) = base_debit_total a + base_debit_total b := by
  simp [base_debit_total]

theorem base_credit_total_append (a b : List JELine) :
    base_credit_total (a ++ b) = base_credit_total a + base_credit_total b := by
  simp [base_credit_total]

theorem flagLine_eq (r : JELine) : ∃ b, flagLine r = { r with isAdvance := b } := by
  simp only [flagLine]
  repeat' split
  all_goals exact ⟨_, rfl⟩

theorem add_rounding_balance (acct : String) (nonAr ar : List JELine) :
    base_debit_total (add_rounding acct nonAr ar)
        - base_credit_total (add_rounding acct nonAr ar)
      = (base_debit_total (nonAr ++ ar) - base_credit_total (nonAr ++ ar))
        - round2 (base_debit_total (nonAr ++ ar) - base_credit_total (nonAr ++ ar)) := by
  simp only [add_rounding]
  generalize round2 (base_debit_total (nonAr ++ ar) - base_credit_total (nonAr ++ ar)) = d
  by_cases h0 : d = 0
  · simp [h0]
  · rw [if_neg h0]
    by_cases hpos : 0 < d
    · rw [if_pos hpos]
      simp only [base_debit_total_append, base_credit_total_append,
        base_debit_total_cons, base_credit_total_cons,
        base_debit_total_nil, base_credit_total_nil]
      rw [abs_of_pos hpos]
      ring
    · rw [if_neg hpos]
      simp only [base_debit_total_append, base_credit_total_append,
        base_debit_total_cons, base_credit_total_cons,
        base_debit_total_nil, base_credit_total_nil]
      rw [abs_of_neg (lt_of_le_of_ne (not_lt.mp hpos) h0)]
      ring

theorem base_debit_total_flag (ls : List JELine) :
    base_debit_total (flag_unallocated_as_advance ls) = base_debit_total ls := by
  induction ls with
  | nil => rfl
  | cons x t ih =>
    obtain ⟨b, hb⟩ := flagLine_eq x
    simp only [flag_unallocated_as_advance, List.map_cons] at ih ⊢
    rw [hb, base_debit_total_cons, base_debit_total_cons, ih]

theorem base_credit_total_flag (ls : List JELine) :
    base_credit_total (flag_unallocated_as_advance ls) = base_credit_total ls := by
  induction ls with
  | nil => rfl
  | cons x t ih =>
    obtain ⟨b, hb⟩ := flagLine_eq x
    simp only [flag_unallocated_as_advance, List.map_cons] at ih ⊢
    rw [hb, base_credit_total_cons, base_credit_total_cons, ih]

theorem abs_sub_round2 (x : ℚ) : |x - round2 x| ≤ 1/200 := by
  rw [round2_eq]
  have h : |100 * x - ((round (100 * x) : ℤ) : ℚ)| ≤ 1/2 := abs_sub_round (100 * x)
  have hrw : x - ((round (100 * x) : ℤ) : ℚ) / 100
      = (100 * x - ((round (100 * x) : ℤ) : ℚ)) / 100 := by ring
  rw [hrw, abs_div]
  have h100 : |(100 : ℚ)| = 100 := by norm_num
  rw [h100]
  linarith

/-!
### C1 — the first-pass Journal Entry is balanced after the rounding step
-/

/--
C1: whenever the first pass builds a Journal Entry (a net-transfer row was
found and no exception fired), the absolute base-currency imbalance
over all its lines, computed as
`|sum(debit_in_account_currency * exchange_rate) - sum(credit_in_account_currency * exchange_rate)|`,
is at most 0.01 after the rounding step.
-/
theorem build_je_balanced_after_rounding (oc : BuildOracles) (st : Settings)
    (rptId : String) (rows : List SRow) (je : JournalEntry)
    (h : build_je oc st rptId rows true = .ok (some je)) :
    |base_debit_total je.accounts - base_credit_total je.accounts| ≤ 1/100 := by
  unfold build_je at h
  cases hfind : find_transfer_row rows with
  | none => rw [hfind] at h; cases h
  | some tr =>
    rw [hfind] at h
    simp only [if_true] at h
    cases hfx : oc.fxRate (settlement_ccy_of tr) with
    | none => rw [hfx] at h; cases h
    | some rate =>
      rw [hfx] at h
      dsimp only at h
      by_cases hccy : knownCcy (settlement_ccy_of tr)
      · rw [if_pos hccy] at h
        injection h with h1
        injection h1 with h2
        subst h2
        unfold build_je_lines
        rw [base_debit_total_flag, base_credit_total_flag, add_rounding_balance]
        exact le_trans (abs_sub_round2 _) (by norm_num)
      · rw [if_neg hccy] at h; cases h

/-! ### Concrete example data for witnesses -/

/-- Witness oracles: rate 1, no invoices, no credit notes. -/
def exOracles : BuildOracles :=
  { fxRate := fun _ => some 1, getSalesInvoice := fun _ => none,
    getOpenSalesInvoice := fun _ => none, createCreditNote := fun _ _ => none }

/-- Witness settings with distinct account names. -/
def exSettings : Settings :=
  { usd := { clearing := "Amazon USD Clearing", debtors := "Amazon USD Debtors",
             customer := "Amazon FBA Customer" },
    reimbursementsAccount := "Amazon Reimbursements",
    miscFeesAccount := "Amazon Misc Fees", roundOffAccount := "Round Off" }

/-- The net-transfer row of the witness scenario. -/
def exTransferRow : SRow :=
  { transactionType := "Transfer", orderId := "", amount := 100, currency := "usd" }

/-- The spec's refund-exceeds-sales scenario: one net transfer of 100 USD, order
O2 with sales +50 and refund rows totalling -80. -/
def exRows : List SRow :=
  [exTransferRow,
   { transactionType := "Order", orderId := "O2", amount := 50 },
   { transactionType := "Refund", orderId := "O2", amount := -80 }]

/-- The Journal Entry built from `exRows` on the first pass. -/
def exJe : JournalEntry :=
  match build_je exOracles exSettings "RPT1" exRows true with
  | .ok (some je) => je
  | _ => default

theorem build_je_balanced_after_rounding_witness :
    build_je exOracles exSettings "RPT1" exRows true = .ok (some exJe) ∧
    |base_debit_total exJe.accounts - base_credit_total exJe.accounts| ≤ 1/100 :=
  ⟨by with_unfolding_all rfl,
    build_je_balanced_after_rounding exOracles exSettings "RPT1" exRows exJe
      (by with_unfolding_all rfl)⟩

/-!
### C6 — a report without a net-transfer row is an explicit no-op
-/

/--
C6: when no row passes the net-transfer test (no order-id-free row matching a
net-deposit marker with amount magnitude above 0.0001), `build_je` returns
`None` (`.ok none`) on either pass instead of raising.
-/
theorem build_je_none_without_transfer (oc : BuildOracles) (st : Settings)
    (rptId : String) (rows : List SRow) (firstPass : Bool)
    (h : find_transfer_row rows = none) :
    build_je oc st rptId rows firstPass = .ok none := by
  unfold build_je
  rw [h]

/-- Rows with no net-transfer row: a single order-level row. -/
def exRowsNoNet : List SRow :=
  [{ transactionType := "Order", orderId := "O1", amount := 20, currency := "USD" }]

theorem build_je_none_without_transfer_witness :
    find_transfer_row exRowsNoNet = none ∧
    build_je exOracles exSettings "RPT2" exRowsNoNet true = .ok none :=
  ⟨by with_unfolding_all rfl,
    build_je_none_without_transfer exOracles exSettings "RPT2" exRowsNoNet true
      (by with_unfolding_all rfl)⟩

/-!
### C9 — what the net-transfer scan actually accepts
-/

/--
The net-transfer-row predicate as worded by the claim: no order id, amount
magnitude above 0.0001, and either transaction type `transfer`, or description
`amazon proceeds` or `transfer`, or both an empty transaction type and an
empty description.
-/
def net_transfer_row_claim (r : SRow) : Bool :=
  pyStrip r.orderId = "" && decide (|r.amount| > mkRat 1 10000)
    && (rowTType r = "transfer"
        || rowDescLower r = "amazon proceeds" || rowDescLower r = "transfer"
        || (rowTType r = "" && rowDescLower r = ""))

theorem looks_pred_eq_claim (r : SRow) :
    (looks_like_net r && decide (|r.amount| > mkRat 1 10000)) = net_transfer_row_claim r := by
  unfold looks_like_net net_transfer_row_claim
  cases h1 : (decide (pyStrip r.orderId = "") : Bool) <;>
    cases h2 : (decide (|r.amount| > mkRat 1 10000) : Bool) <;>
      simp [h1, h2, Bool.and_comm, Bool.or_assoc]

theorem add_rounding_head (acct : String) (x : JELine) (rest ar : List JELine) :
    (add_rounding acct (x :: rest) ar).head? = some x := by
  simp only [add_rounding]
  split
  · rfl
  · rfl

theorem add_rounding_head_of (acct : String) (nonAr ar : List JELine) (x : JELine)
    (h : nonAr.head? = some x) : (add_rounding acct nonAr ar).head? = some x := by
  cases nonAr with
  | nil => cases h
  | cons y t =>
    rw [List.head?_cons] at h
    injection h with h1
    subst h1
    exact add_rounding_head acct y t ar

theorem head?_flag (ls : List JELine) :
    (flag_unallocated_as_advance ls).head? = ls.head?.map flagLine := by
  simp [flag_unallocated_as_advance]

theorem non_ar_lines_pre_head (st : Settings) (c : String) (rate n ru fu : ℚ)
    (sf : List (String × ℚ)) :
    (non_ar_lines_pre st c rate n ru fu sf).head? = some (clearing_line st c rate n) := rfl

theorem clearing_line_amount (st : Settings) (c : String) (rate n : ℚ) :
    (clearing_line st c rate n).account = get_clearing_account st c ∧
    (clearing_line st c rate n).debitInAccountCurrency
      - (clearing_line st c rate n).creditInAccountCurrency = n := by
  unfold clearing_line
  split <;> constructor <;> simp

theorem build_je_lines_head (oc : BuildOracles) (st : Settings) (rows : List SRow)
    (tr : SRow) (rate : ℚ) :
    (build_je_lines oc st rows tr rate).head?
      = some (flagLine (clearing_line st (settlement_ccy_of tr) rate tr.amount)) := by
  unfold build_je_lines
  rw [head?_flag, add_rounding_head_of _ _ _ _ (non_ar_lines_pre_head _ _ _ _ _ _ _)]
  rfl

/--
C9: the scan `build_je` uses to pick the net-transfer row accepts exactly the
claim's predicate (first row with no order id, magnitude above 0.0001, and
type `transfer`, description `amazon proceeds`/`transfer`, or both fields
empty); and whenever a first-pass Journal Entry is built, its first line is
the clearing line whose base amount and account are determined by that first
matching row alone.
-/
theorem net_transfer_selection (rows : List SRow) :
    find_transfer_row rows = rows.find? net_transfer_row_claim ∧
    (∀ (oc : BuildOracles) (st : Settings) (rptId : String) (tr : SRow) (je : JournalEntry),
      find_transfer_row rows = some tr →
      build_je oc st rptId rows true = .ok (some je) →
      je.accounts.head?.map
          (fun l => (l.account, l.debitInAccountCurrency - l.creditInAccountCurrency))
        = some (get_clearing_account st (settlement_ccy_of tr), tr.amount)) := by
  constructor
  · unfold find_transfer_row
    exact congrArg (fun p => rows.find? p) (funext looks_pred_eq_claim)
  · intro oc st rptId tr je hfind h
    unfold build_je at h
    rw [hfind] at h
    simp only [if_true] at h
    cases hfx : oc.fxRate (settlement_ccy_of tr) with
    | none => rw [hfx] at h; cases h
    | some rate =>
      rw [hfx] at h
      dsimp only at h
      by_cases hccy : knownCcy (settlement_ccy_of tr)
      · rw [if_pos hccy] at h
        injection h with h1
        injection h1 with h2
        subst h2
        show ((build_je_lines oc st rows tr rate).head?).map
            (fun l => (l.account, l.debitInAccountCurrency - l.creditInAccountCurrency))
          = some (get_clearing_account st (settlement_ccy_of tr), tr.amount)
        rw [build_je_lines_head]
        obtain ⟨b, hb⟩ := flagLine_eq (clearing_line st (settlement_ccy_of tr) rate tr.amount)
        rw [hb]
        obtain ⟨ha, hd⟩ := clearing_line_amount st (settlement_ccy_of tr) rate tr.amount
        exact congrArg some (Prod.ext ha hd)
      · rw [if_neg hccy] at h; cases h

theorem net_transfer_selection_witness :
    find_transfer_row exRows = exRows.find? net_transfer_row_claim ∧
    (exJe.accounts.head?.map
        (fun l => (l.account, l.debitInAccountCurrency - l.creditInAccountCurrency))
      = some (get_clearing_account exSettings (settlement_ccy_of exTransferRow),
              exTransferRow.amount)) :=
  ⟨(net_transfer_selection exRows).1,
    (net_transfer_selection exRows).2 exOracles exSettings "RPT1" exTransferRow exJe
      (by with_unfolding_all rfl) (by with_unfolding_all rfl)⟩

/-!
### C2 — sales and refund AR lines are separate, never netted
-/

theorem mkSalesLine_shape (oc : BuildOracles) (groups : List (String × List SRow))
    (da cu : String) (rate : ℚ) (e : String × ℚ) :
    ∃ rt rn ur mid, mkSalesLine oc groups da cu rate e
      = { account := da, exchangeRate := rate, debitInAccountCurrency := 0,
          creditInAccountCurrency := e.2, debit := 0, credit := 0,
          partyType := "Customer", party := cu, amazonOrderId := e.1,
          referenceType := rt, referenceName := rn, userRemark := ur,
          customMerchantOrderId := mid, isAdvance := false } := by
  simp only [mkSalesLine, stamp_marketplace_fields]
  repeat' split
  all_goals exact ⟨_, _, _, _, rfl⟩

theorem mkRefundLine_shape (oc : BuildOracles) (groups : List (String × List SRow))
    (da cu : String) (rate : ℚ) (e : String × ℚ) :
    ∃ rt rn ur mid, mkRefundLine oc groups da cu rate e
      = { account := da, exchangeRate := rate, debitInAccountCurrency := e.2,
          creditInAccountCurrency := 0, debit := 0, credit := 0,
          partyType := "Customer", party := cu, amazonOrderId := e.1,
          referenceType := rt, referenceName := rn, userRemark := ur,
          customMerchantOrderId := mid, isAdvance := false } := by
  simp only [mkRefundLine, stamp_marketplace_fields]
  repeat' split
  all_goals exact ⟨_, _, _, _, rfl⟩

theorem add_rounding_mem_ar (acct : String) (nonAr ar : List JELine) (l : JELine)
    (h : l ∈ ar) : l ∈ add_rounding acct nonAr ar := by
  simp only [add_rounding]
  split
  · exact List.mem_append_right _ h
  · exact List.mem_append_right _ h

theorem build_je_lines_mem_ar (oc : BuildOracles) (st : Settings) (rows : List SRow)
    (tr : SRow) (rate : ℚ) (l : JELine)
    (h : l ∈ (sales_totals rows).map (mkSalesLine oc (order_groups rows)
          (get_debtors_account st (settlement_ccy_of tr))
          ((ccyAccounts st (settlement_ccy_of tr)).customer) rate)
        ++ (refund_totals rows).map (mkRefundLine oc (order_groups rows)
          (get_debtors_account st (settlement_ccy_of tr))
          ((ccyAccounts st (settlement_ccy_of tr)).customer) rate)) :
    flagLine l ∈ build_je_lines oc st rows tr rate := by
  unfold build_je_lines
  exact List.mem_map_of_mem flagLine (add_rounding_mem_ar _ _ _ _ h)

theorem alookup_mem {β : Type} (o : String) (v : β) (L : List (String × β))
    (h : alookup o L = some v) : (o, v) ∈ L := by
  unfold alookup at h
  cases hf : L.find? (fun kv => kv.1 = o) with
  | none => rw [hf] at h; cases h
  | some kv =>
    rw [hf] at h
    injection h with h1
    have hm := List.mem_of_find?_eq_some hf
    have hp := List.find?_some hf
    simp only [decide_eq_true_eq] at hp
    obtain ⟨k, w⟩ := kv
    cases hp
    cases h1
    exact hm

theorem sales_totals_bound (rows : List SRow) (o : String) (s : ℚ)
    (h : (o, s) ∈ sales_totals rows) : mkRat 1 100 ≤ |s| := by
  unfold sales_totals at h
  rw [List.mem_filterMap] at h
  obtain ⟨og, _, heq⟩ := h
  by_cases hc : |salesSumOf og.2| ≥ mkRat 1 100
  · rw [if_pos hc] at heq
    injection heq with h1
    rw [Prod.mk.injEq] at h1
    rw [← h1.2]
    exact hc
  · rw [if_neg hc] at heq; cases heq

/--
C2: whenever an order id carries both a sales total and a refund total in the
same report, the first-pass Journal Entry contains a party line crediting the
order's sales total and a distinct party line debiting the order's refund
magnitude, on the same (debtors) account — the two amounts are never netted
into a single line.
-/
theorem build_je_separate_ar_lines (oc : BuildOracles) (st : Settings)
    (rptId : String) (rows : List SRow) (je : JournalEntry) (o : String) (s f : ℚ)
    (h : build_je oc st rptId rows true = .ok (some je))
    (hs : alookup o (sales_totals rows) = some s)
    (hf : alookup o (refund_totals rows) = some f) :
    ∃ l1 ∈ je.accounts, ∃ l2 ∈ je.accounts, l1 ≠ l2
      ∧ l1.partyType = "Customer" ∧ l1.amazonOrderId = o
      ∧ l1.creditInAccountCurrency = s ∧ l1.debitInAccountCurrency = 0
      ∧ l2.partyType = "Customer" ∧ l2.amazonOrderId = o
      ∧ l2.debitInAccountCurrency = f ∧ l2.creditInAccountCurrency = 0
      ∧ l1.account = l2.account := by
  unfold build_je at h
  cases hfind : find_transfer_row rows with
  | none => rw [hfind] at h; cases h
  | some tr =>
    rw [hfind] at h
    simp only [if_true] at h
    cases hfx : oc.fxRate (settlement_ccy_of tr) with
    | none => rw [hfx] at h; cases h
    | some rate =>
      rw [hfx] at h
      dsimp only at h
      by_cases hccy : knownCcy (settlement_ccy_of tr)
      · rw [if_pos hccy] at h
        injection h with h1
        injection h1 with h2
        subst h2
        have hsm := alookup_mem o s (sales_totals rows) hs
        have hfm := alookup_mem o f (refund_totals rows) hf
        have hsbound := sales_totals_bound rows o s hsm
        have hsne : s ≠ 0 := by
          intro h0
          rw [h0, abs_zero] at hsbound
          rw [mkRat_hundredth] at hsbound
          norm_num at hsbound
        obtain ⟨rt1, rn1, ur1, mid1, hshape1⟩ := mkSalesLine_shape oc (order_groups rows)
          (get_debtors_account st (settlement_ccy_of tr))
          ((ccyAccounts st (settlement_ccy_of tr)).customer) rate (o, s)
        obtain ⟨rt2, rn2, ur2, mid2, hshape2⟩ := mkRefundLine_shape oc (order_groups rows)
          (get_debtors_account st (settlement_ccy_of tr))
          ((ccyAccounts st (settlement_ccy_of tr)).customer) rate (o, f)
        obtain ⟨b1, hb1⟩ := flagLine_eq (mkSalesLine oc (order_groups rows)
          (get_debtors_account st (settlement_ccy_of tr))
          ((ccyAccounts st (settlement_ccy_of tr)).customer) rate (o, s))
        obtain ⟨b2, hb2⟩ := flagLine_eq (mkRefundLine oc (order_groups rows)
          (get_debtors_account st (settlement_ccy_of tr))
          ((ccyAccounts st (settlement_ccy_of tr)).customer) rate (o, f))
        refine ⟨_, build_je_lines_mem_ar oc st rows tr rate _
            (List.mem_append_left _ (List.mem_map_of_mem _ hsm)), _,
          build_je_lines_mem_ar oc st rows tr rate _
            (List.mem_append_right _ (List.mem_map_of_mem _ hfm)), ?_, ?_, ?_, ?_, ?_, ?_, ?_, ?_, ?_, ?_⟩
        · intro hcontra
          have hcred : s = (0 : ℚ) := by
            have h1 := congrArg JELine.creditInAccountCurrency hcontra
            rw [hb1, hshape1, hb2, hshape2] at h1
            exact h1
          exact hsne hcred
        · rw [hb1, hshape1]
        · rw [hb1, hshape1]
        · rw [hb1, hshape1]
        · rw [hb1, hshape1]
        · rw [hb2, hshape2]
        · rw [hb2, hshape2]
        · rw [hb2, hshape2]
        · rw [hb2, hshape2]
        · rw [hb1, hshape1, hb2, hshape2]
      · rw [if_neg hccy] at h; cases h

theorem build_je_separate_ar_lines_witness :
    ∃ l1 ∈ exJe.accounts, ∃ l2 ∈ exJe.accounts, l1 ≠ l2
      ∧ l1.partyType = "Customer" ∧ l1.amazonOrderId = "O2"
      ∧ l1.creditInAccountCurrency = 50 ∧ l1.debitInAccountCurrency = 0
      ∧ l2.partyType = "Customer" ∧ l2.amazonOrderId = "O2"
      ∧ l2.debitInAccountCurrency = 80 ∧ l2.creditInAccountCurrency = 0
      ∧ l1.account = l2.account :=
  build_je_separate_ar_lines exOracles exSettings "RPT1" exRows exJe "O2" 50 80
    (by with_unfolding_all rfl) (by with_unfolding_all rfl) (by with_unfolding_all rfl)

/-!
### C10 — reimbursement filter: whitelist/description matches ignore sign,
the positivity test binds only to the amount-type branch
-/

theorem reimb_native_cons (r : SRow) (rows : List SRow) :
    reimb_native (r :: rows)
      = if reimbFilter r then r.amount + reimb_native rows else reimb_native rows := by
  simp only [reimb_native, List.filter_cons]
  split <;> simp

/--
C10: a row whose upper-cased description is whitelisted, or contains
`REIMBURSEMENT`, contributes its amount to the reimbursement total regardless
of sign; a row matched only through its amount-type field contributes exactly
when its amount is positive — the consequence of Python binding `and` tighter
than `or` in the filter of source lines 816-823.
-/
theorem reimb_filter_precedence (r : SRow) (rows : List SRow) :
    (REIMBURSEMENT_WHITE_LIST.contains (pyUpper (pyStrip r.amountDescription)) = true →
      reimb_native (r :: rows) = r.amount + reimb_native rows)
    ∧ (strContains (pyUpper (pyStrip r.amountDescription)) "REIMBURSEMENT" = true →
      reimb_native (r :: rows) = r.amount + reimb_native rows)
    ∧ (REIMBURSEMENT_WHITE_LIST.contains (pyUpper (pyStrip r.amountDescription)) = false →
       strContains (pyUpper (pyStrip r.amountDescription)) "REIMBURSEMENT" = false →
       r.amount ≤ 0 →
      reimb_native (r :: rows) = reimb_native rows)
    ∧ (strContains (pyUpper (pyStrip r.amountType)) "REIMBURSEMENT" = true →
       0 < r.amount →
      reimb_native (r :: rows) = r.amount + reimb_native rows) := by
  refine ⟨?_, ?_, ?_, ?_⟩
  · intro h1
    have h1m : pyUpper (pyStrip r.amountDescription) ∈ REIMBURSEMENT_WHITE_LIST := by
      simpa using h1
    rw [reimb_native_cons, if_pos (by simp [reimbFilter, h1m])]
  · intro h2
    rw [reimb_native_cons, if_pos (by simp [reimbFilter, h2])]
  · intro h1 h2 h3
    have h1m : pyUpper (pyStrip r.amountDescription) ∉ REIMBURSEMENT_WHITE_LIST := by
      simpa using h1
    rw [reimb_native_cons, if_neg]
    simp [reimbFilter, h1m, h2, not_lt.mpr h3]
  · intro h1 h2
    rw [reimb_native_cons, if_pos (by simp [reimbFilter, h1, h2])]

/-- A whitelisted reimbursement reversal with a negative amount. -/
def exReimbRow : SRow := { amountDescription := "WAREHOUSE_LOST", amount := -5 }

theorem reimb_filter_precedence_witness :
    reimb_native [exReimbRow] = exReimbRow.amount + reimb_native [] :=
  (reimb_filter_precedence exReimbRow []).1 (by with_unfolding_all rfl)

/-!
### C8 — the lock-retry wrapper
-/

/-- Outcome of one invocation of the function wrapped by `_retry_locked`. -/
inductive AttemptOutcome (α : Type) where
  /-- The call returned a value. -/
  | ok (a : α)
  /-- The call raised `frappe.exceptions.DocumentLockedError`. -/
  | locked
  /-- The call raised any other exception. -/
  | failed
  deriving Repr, DecidableEq

/-- What a run of the wrapped function observably did: the escaping outcome,
the number of invocations made, and the sleeps performed between them. -/
structure RetryRun (α : Type) where
  result : AttemptOutcome α
  attempts : ℕ
  sleeps : List ℚ
  deriving Repr, DecidableEq

/-- The loop of `_retry_locked` (source lines 1500-1516): `n` remaining loop
iterations, `k` attempts already made, `cur` the current delay, `acc` the
sleeps so far.  When the loop exhausts its iterations a final unguarded call
is made (source line 1514). -/
def retry_go {α : Type} (beh : ℕ → AttemptOutcome α) : ℕ → ℕ → ℚ → List ℚ → RetryRun α
  | 0, k, _, acc => { result := beh k, attempts := k + 1, sleeps := acc }
  | n+1, k, cur, acc =>
    match beh k with
    | .ok a => { result := .ok a, attempts := k + 1, sleeps := acc }
    | .failed => { result := .failed, attempts := k + 1, sleeps := acc }
    | .locked => retry_go beh n (k+1) (min (cur * (3/2)) 15) (acc ++ [cur])

/-- `_retry_locked()` with its default parameters `tries=12, delay=2.0`. -/
def retry_locked {α : Type} (beh : ℕ → AttemptOutcome α) : RetryRun α :=
  retry_go beh 12 0 2 []

/-- The twelve backoff sleeps of an all-locked run: starting at 2 s, growing
by a factor 1.5, capped at 15 s. -/
def lockedBackoffSleeps : List ℚ :=
  [2, 3, 9/2, 27/4, 81/8, 15, 15, 15, 15, 15, 15, 15]

theorem retry_go_failed {α : Type} (beh : ℕ → AttemptOutcome α) :
    ∀ (j n k : ℕ) (cur : ℚ) (acc : List ℚ), j < n + 1 →
    (∀ i, i < j → beh (k + i) = .locked) → beh (k + j) = .failed →
    ∃ ds, retry_go beh n k cur acc
        = { result := .failed, attempts := k + j + 1, sleeps := acc ++ ds }
      ∧ ds.length = j := by
  intro j
  induction j with
  | zero =>
    intro n k cur acc _ _ hf
    simp only [Nat.add_zero] at hf
    cases n with
    | zero => exact ⟨[], by simp [retry_go, hf], rfl⟩
    | succ m => exact ⟨[], by simp [retry_go, hf], rfl⟩
  | succ j ih =>
    intro n k cur acc hlt hlocked hf
    cases n with
    | zero => omega
    | succ m =>
      have h0 : beh k = .locked := by
        have := hlocked 0 (Nat.succ_pos j)
        simpa using this
      have hrec := ih m (k+1) (min (cur * (3/2)) 15) (acc ++ [cur]) (by omega)
        (fun i hi => by
          have := hlocked (i+1) (by omega)
          simpa [Nat.add_comm, Nat.add_assoc, Nat.add_left_comm] using this)
        (by simpa [Nat.add_comm, Nat.add_assoc, Nat.add_left_comm] using hf)
      obtain ⟨ds, hds, hlen⟩ := hrec
      refine ⟨cur :: ds, ?_, by simp [hlen]⟩
      simp only [retry_go, h0]
      rw [hds]
      congr 1
      · omega
      · simp

/--
C8: the lock-retry wrapper retries the wrapped call up to 12 times on the
document-locked condition — an all-locked behaviour makes 13 invocations and
sleeps exactly `[2, 3, 4.5, 6.75, 10.125, 15, 15, 15, 15, 15, 15, 15]`
(backoff from about 2 s, factor 1.5, capped at 15 s) — while any other
exception escapes at the attempt that raised it, with no further invocation
and no further sleep.
-/
theorem retry_locked_behaviour {α : Type} (beh : ℕ → AttemptOutcome α) :
    ((∀ k, beh k = .locked) →
      retry_locked beh
        = { result := .locked, attempts := 13, sleeps := lockedBackoffSleeps })
    ∧ (∀ j, j ≤ 12 → (∀ i, i < j → beh i = .locked) → beh j = .failed →
      ∃ ds, retry_locked beh = { result := .failed, attempts := j + 1, sleeps := ds }
        ∧ ds.length = j) := by
  constructor
  · intro h
    unfold retry_locked
    simp only [retry_go, h]
    norm_num [lockedBackoffSleeps]
  · intro j hj hlocked hf
    obtain ⟨ds, hds, hlen⟩ := retry_go_failed beh j 12 0 2 [] (by omega)
      (fun i hi => by simpa using hlocked i hi) (by simpa using hf)
    exact ⟨ds, by simpa using hds, hlen⟩

theorem retry_locked_behaviour_witness :
    retry_locked (fun _ => (.locked : AttemptOutcome Unit))
      = { result := .locked, attempts := 13, sleeps := lockedBackoffSleeps } :=
  (retry_locked_behaviour (fun _ => (.locked : AttemptOutcome Unit))).1 (fun _ => rfl)

/-!
### C4 — aggregation: raw signed sales sum, negated refund sum, 0.01 noise filter
-/

/-- Does the row belong to order `o`'s group (qualifying type, stripped id `o`)? -/
def qualRow (o : String) (r : SRow) : Bool := isOrderRow r && pyStrip r.orderId = o

theorem alookup_addToGroup (gs : List (String × List SRow)) (k : String) (r : SRow)
    (o : String) :
    alookup o (addToGroup gs k r)
      = if k = o then some ((alookup o gs).getD [] ++ [r]) else alookup o gs := by
  induction gs with
  | nil =>
    by_cases h : k = o <;> simp [alookup, addToGroup, List.find?, h]
  | cons kv t ih =>
    obtain ⟨k', g⟩ := kv
    by_cases h1 : k' = k
    · subst h1
      by_cases h2 : k' = o <;> simp [alookup, addToGroup, List.find?, h2]
    · by_cases h2 : k' = o
      · subst h2
        have h3 : ¬ k = k' := fun hc => h1 hc.symm
        simp [alookup, addToGroup, List.find?, h1, h3]
      · by_cases h3 : k = o
        · subst h3
          simp only [alookup, addToGroup] at ih ⊢
          simp [List.find?, h1, h2, ih]
        · simp only [alookup, addToGroup] at ih ⊢
          simp [List.find?, h1, h2, h3, ih]

theorem order_groups_foldl_lookup (rows : List SRow) :
    ∀ (gs : List (String × List SRow)) (o : String),
    alookup o (List.foldl
        (fun gs r => if isOrderRow r then addToGroup gs (pyStrip r.orderId) r else gs) gs rows)
      = if (alookup o gs).isSome ∨ rows.filter (qualRow o) ≠ []
        then some ((alookup o gs).getD [] ++ rows.filter (qualRow o))
        else none := by
  induction rows with
  | nil =>
    intro gs o
    cases halo : alookup o gs <;> simp [halo]
  | cons r t ih =>
    intro gs o
    simp only [List.foldl_cons]
    by_cases hior : isOrderRow r
    · rw [if_pos hior]
      by_cases hkey : pyStrip r.orderId = o
      · have hq : qualRow o r = true := by simp [qualRow, hior, hkey]
        rw [ih]
        rw [alookup_addToGroup]
        rw [if_pos hkey]
        simp [List.filter_cons, hq]
      · have hq : qualRow o r = false := by simp [qualRow, hkey]
        rw [ih]
        rw [alookup_addToGroup]
        rw [if_neg hkey]
        simp [List.filter_cons, hq]
    · rw [if_neg hior]
      have hq : qualRow o r = false := by simp [qualRow, hior]
      rw [ih]
      simp [List.filter_cons, hq]

theorem alookup_order_groups (rows : List SRow) (o : String) :
    alookup o (order_groups rows)
      = if rows.filter (qualRow o) = [] then none
        else some (rows.filter (qualRow o)) := by
  have h := order_groups_foldl_lookup rows [] o
  have hnil : alookup o ([] : List (String × List SRow)) = none := rfl
  rw [hnil] at h
  simp only [Option.isSome_none, Bool.false_eq_true, false_or, Option.getD_none,
    List.nil_append] at h
  unfold order_groups
  rw [h]
  by_cases he : rows.filter (qualRow o) = [] <;> simp [he]

theorem addToGroup_keys (gs : List (String × List SRow)) (k : String) (r : SRow) :
    (addToGroup gs k r).map Prod.fst
      = if k ∈ gs.map Prod.fst then gs.map Prod.fst else gs.map Prod.fst ++ [k] := by
  induction gs with
  | nil => simp [addToGroup]
  | cons kv t ih =>
    obtain ⟨k', g⟩ := kv
    by_cases h1 : k' = k
    · subst h1
      simp [addToGroup]
    · have h2 : ¬ k = k' := fun hc => h1 hc.symm
      simp [addToGroup, h1, h2, ih]
      by_cases h3 : k ∈ t.map Prod.fst <;> simp [h2, h3]

theorem addToGroup_keys_nodup (gs : List (String × List SRow)) (k : String) (r : SRow)
    (h : (gs.map Prod.fst).Nodup) : ((addToGroup gs k r).map Prod.fst).Nodup := by
  rw [addToGroup_keys]
  by_cases h1 : k ∈ gs.map Prod.fst
  · simpa [h1]
  · simp only [h1, if_false]
    rw [List.nodup_append]
    exact ⟨h, List.nodup_singleton _, by simpa using h1⟩

theorem order_groups_keys_nodup (rows : List SRow) :
    ((order_groups rows).map Prod.fst).Nodup := by
  unfold order_groups
  have h : ∀ (l : List SRow) (gs : List (String × List SRow)), (gs.map Prod.fst).Nodup →
      ((List.foldl (fun gs r => if isOrderRow r then addToGroup gs (pyStrip r.orderId) r else gs)
        gs l).map Prod.fst).Nodup := by
    intro l
    induction l with
    | nil => intro gs hgs; simpa
    | cons r t ih =>
      intro gs hgs
      simp only [List.foldl_cons]
      by_cases hior : isOrderRow r
      · rw [if_pos hior]
        exact ih _ (addToGroup_keys_nodup gs _ r hgs)
      · rw [if_neg hior]
        exact ih _ hgs
  exact h rows [] (by simp)

theorem alookup_eq_none_of_not_mem_keys {β : Type} (o : String) (L : List (String × β))
    (h : o ∉ L.map Prod.fst) : alookup o L = none := by
  induction L with
  | nil => rfl
  | cons kv t ih =>
    obtain ⟨k, v⟩ := kv
    simp only [List.map_cons, List.mem_cons] at h
    push_neg at h
    have hk : ¬ k = o := fun hc => h.1 hc.symm
    simp only [alookup]
    rw [List.find?_cons_of_neg]
    · exact ih h.2
    · simpa using hk

theorem alookup_filterMap_keyed (F : List SRow → Option ℚ) :
    ∀ (gs : List (String × List SRow)) (o : String),
    ((gs.map Prod.fst).Nodup) →
    alookup o (gs.filterMap (fun og => (F og.2).map (fun q => (og.1, q))))
      = (alookup o gs).bind F := by
  intro gs
  induction gs with
  | nil => intro o _; rfl
  | cons kv t ih =>
    intro o hnd
    obtain ⟨k, g⟩ := kv
    simp only [List.map_cons, List.nodup_cons] at hnd
    obtain ⟨hk_not, hnd_t⟩ := hnd
    by_cases hko : k = o
    · subst hko
      cases hF : F g with
      | some q => simp [alookup, List.find?, List.filterMap_cons, hF]
      | none =>
        simp only [List.filterMap_cons, hF, Option.map_none']
        have : alookup k (t.filterMap (fun og => (F og.2).map (fun q => (og.1, q)))) = none := by
          apply alookup_eq_none_of_not_mem_keys
          intro hmem
          apply hk_not
          simp only [List.mem_map] at hmem ⊢
          obtain ⟨p, hp, hpk⟩ := hmem
          rw [List.mem_filterMap] at hp
          obtain ⟨og, hog, hogeq⟩ := hp
          cases hFog : F og.2 with
          | none => rw [hFog] at hogeq; cases hogeq
          | some q' =>
            rw [hFog] at hogeq
            injection hogeq with h1
            refine ⟨og, hog, ?_⟩
            rw [← hpk, ← h1]
        rw [this]
        simp [alookup, List.find?, hF]
    · have hko' : ¬ k = o := hko
      cases hF : F g with
      | some q =>
        simp only [List.filterMap_cons, hF]
        simp [alookup, List.find?, hko']
        have := ih o hnd_t
        simp [alookup] at this
        exact this
      | none =>
        simp only [List.filterMap_cons, hF]
        have := ih o hnd_t
        simp [alookup, List.find?, hko'] at this ⊢
        exact this

/-- The raw signed sum of order `o`'s rows whose type is in `SALES_TYPES`. -/
def orderSalesSum (rows : List SRow) (o : String) : ℚ :=
  ((rows.filter (fun r => SALES_TYPES.contains (rowTType r) && pyStrip r.orderId = o)).map
    SRow.amount).sum

/-- The raw signed sum of order `o`'s rows whose type is in `REFUND_TYPES`. -/
def orderRefundSum (rows : List SRow) (o : String) : ℚ :=
  ((rows.filter (fun r => REFUND_TYPES.contains (rowTType r) && pyStrip r.orderId = o)).map
    SRow.amount).sum

theorem qual_and_sales (o : String) (ho : o ≠ "") (r : SRow) :
    (qualRow o r && SALES_TYPES.contains (rowTType r))
      = (SALES_TYPES.contains (rowTType r) && decide (pyStrip r.orderId = o)) := by
  by_cases h1 : SALES_TYPES.contains (rowTType r) = true
  · by_cases h2 : pyStrip r.orderId = o
    · have h3 : rowTType r ∈ SALES_TYPES := by simpa using h1
      have h4 : rowTType r ∈ SALES_TYPES ++ REFUND_TYPES := List.mem_append_left _ h3
      have h5 : pyStrip r.orderId ≠ "" := by rw [h2]; exact ho
      simp [qualRow, isOrderRow, h1, h2, h4, h5, ho]
    · simp [qualRow, h1, h2]
  · have h1m : rowTType r ∉ SALES_TYPES := by simpa using h1
    simp [h1m]

theorem qual_and_refund (o : String) (ho : o ≠ "") (r : SRow) :
    (qualRow o r && REFUND_TYPES.contains (rowTType r))
      = (REFUND_TYPES.contains (rowTType r) && decide (pyStrip r.orderId = o)) := by
  by_cases h1 : REFUND_TYPES.contains (rowTType r) = true
  · by_cases h2 : pyStrip r.orderId = o
    · have h3 : rowTType r ∈ REFUND_TYPES := by simpa using h1
      have h4 : rowTType r ∈ SALES_TYPES ++ REFUND_TYPES := List.mem_append_right _ h3
      have h5 : pyStrip r.orderId ≠ "" := by rw [h2]; exact ho
      simp [qualRow, isOrderRow, h1, h2, h4, h5, ho]
    · simp [qualRow, h1, h2]
  · have h1m : rowTType r ∉ REFUND_TYPES := by simpa using h1
    simp [h1m]

theorem salesSumOf_qual (rows : List SRow) (o : String) (ho : o ≠ "") :
    salesSumOf (rows.filter (qualRow o)) = orderSalesSum rows o := by
  unfold salesSumOf orderSalesSum
  rw [List.filter_filter]
  have hfun : (fun a => SALES_TYPES.contains (rowTType a) && qualRow o a)
      = (fun r => SALES_TYPES.contains (rowTType r) && decide (pyStrip r.orderId = o)) := by
    funext r
    rw [Bool.and_comm]
    exact qual_and_sales o ho r
  rw [hfun]

theorem refundSumOf_qual (rows : List SRow) (o : String) (ho : o ≠ "") :
    refundSumOf (rows.filter (qualRow o)) = -(orderRefundSum rows o) := by
  unfold refundSumOf orderRefundSum
  rw [List.filter_filter]
  have hfun : (fun a => REFUND_TYPES.contains (rowTType a) && qualRow o a)
      = (fun r => REFUND_TYPES.contains (rowTType r) && decide (pyStrip r.orderId = o)) := by
    funext r
    rw [Bool.and_comm]
    exact qual_and_refund o ho r
  rw [hfun]

/--
C4: for every nonempty order id, the sales map holds exactly the raw signed
sum of that order's `SALES_TYPES` rows and the refund map exactly the negated
sum of its `REFUND_TYPES` rows (a positive magnitude for the usual negative
refund rows), each entry dropped from its map when its magnitude is below
0.01.
-/
theorem aggregation_totals (rows : List SRow) (o : String) (ho : o ≠ "") :
    alookup o (sales_totals rows)
      = (if 1/100 ≤ |orderSalesSum rows o| then some (orderSalesSum rows o) else none)
    ∧ alookup o (refund_totals rows)
      = (if 1/100 ≤ |(-(orderRefundSum rows o))| then some (-(orderRefundSum rows o))
         else none) := by
  constructor
  · have hmap : sales_totals rows
        = (order_groups rows).filterMap
            (fun og => ((if |salesSumOf og.2| ≥ mkRat 1 100
                then some (salesSumOf og.2) else none)).map (fun q => (og.1, q))) := by
      unfold sales_totals
      congr 1
      funext og
      by_cases hc : |salesSumOf og.2| ≥ mkRat 1 100 <;> simp [hc]
    rw [hmap,
      alookup_filterMap_keyed (fun g => if |salesSumOf g| ≥ mkRat 1 100
        then some (salesSumOf g) else none) (order_groups rows) o (order_groups_keys_nodup rows),
      alookup_order_groups]
    by_cases he : rows.filter (qualRow o) = []
    · rw [if_pos he]
      have h0 : orderSalesSum rows o = 0 := by
        rw [← salesSumOf_qual rows o ho, he]
        rfl
      rw [h0]
      norm_num
    · rw [if_neg he]
      rw [Option.some_bind]
      rw [salesSumOf_qual rows o ho, mkRat_hundredth]
  · have hmap : refund_totals rows
        = (order_groups rows).filterMap
            (fun og => ((if |refundSumOf og.2| ≥ mkRat 1 100
                then some (refundSumOf og.2) else none)).map (fun q => (og.1, q))) := by
      unfold refund_totals
      congr 1
      funext og
      by_cases hc : |refundSumOf og.2| ≥ mkRat 1 100 <;> simp [hc]
    rw [hmap,
      alookup_filterMap_keyed (fun g => if |refundSumOf g| ≥ mkRat 1 100
        then some (refundSumOf g) else none) (order_groups rows) o (order_groups_keys_nodup rows),
      alookup_order_groups]
    by_cases he : rows.filter (qualRow o) = []
    · rw [if_pos he]
      have h0 : -(orderRefundSum rows o) = 0 := by
        rw [← refundSumOf_qual rows o ho, he]
        rfl
      rw [h0]
      norm_num
    · rw [if_neg he]
      rw [Option.some_bind]
      rw [refundSumOf_qual rows o ho, mkRat_hundredth]

theorem aggregation_totals_witness :
    alookup "O2" (sales_totals exRows)
      = (if 1/100 ≤ |orderSalesSum exRows "O2"| then some (orderSalesSum exRows "O2") else none)
    ∧ alookup "O2" (refund_totals exRows)
      = (if 1/100 ≤ |(-(orderRefundSum exRows "O2"))| then some (-(orderRefundSum exRows "O2"))
       else none) :=
  aggregation_totals exRows "O2" (by with_unfolding_all decide)

/-!
### C5 — fx_rate: raises iff cache, API, fallback chain and manual record all miss
-/

/-- The three rate sources of `fx_rate` (source lines 198-243): the frappe cache
and the exchange-rate API are keyed by currency pair and day, the most recent
manual Currency Exchange record only by pair (the query at lines 227-232 ignores
the date).  `none` models both a raised request error and an absent value. -/
structure FxSources where
  cache : String → String → Int → Option ℚ
  api : String → String → Int → Option ℚ
  manual : String → String → Option ℚ

/-- Python truthiness of a rate: `None` and `0.0` are falsy (`if cached_rate:`,
`if rate:`, `if not rate`, `if latest_rate:` in the source). -/
def truthyRate : Option ℚ → Bool
  | none => false
  | some q => q ≠ 0

/-- One level of `fx_rate` (source lines 190-248) with the recursive prior-day
fallback passed in as `fb`: equal pairs return 1; then the cached value, the API
value, the fallback and the latest manual record are consulted in order, each
only when truthy; `none` models `frappe.throw`.  (In the source an exception
thrown inside the recursive call at line 222 propagates before the outer manual
lookup runs, but as the manual query is date-independent the outer lookup would
find exactly what the innermost one missed, so the outcome is the same.) -/
def fx_rate_core (src : FxSources) (f t : String) (d : Int) (fb : Option ℚ) : Option ℚ :=
  if pyUpper f = pyUpper t then some 1
  else if truthyRate (src.cache (pyUpper f) (pyUpper t) d) then src.cache (pyUpper f) (pyUpper t) d
  else if truthyRate (src.api (pyUpper f) (pyUpper t) d) then src.api (pyUpper f) (pyUpper t) d
  else if truthyRate fb then fb
  else if truthyRate (src.manual (pyUpper f) (pyUpper t)) then src.manual (pyUpper f) (pyUpper t)
  else none

/-- `fx_rate` with `fallback_days` as fuel: day `d - 1` is retried with one
fewer fallback day (source lines 220-222). -/
def fx_rate (src : FxSources) (f t : String) (d : Int) : Nat → Option ℚ
  | 0 => fx_rate_core src f t d none
  | fd + 1 => fx_rate_core src f t d (fx_rate src f t (d - 1) fd)

theorem truthyRate_some {o : Option ℚ} (h : truthyRate o = true) : ∃ q, o = some q := by
  cases o with
  | none => cases h
  | some q => exact ⟨q, rfl⟩

theorem fx_rate_core_none_iff (src : FxSources) (f t : String) (d : Int) (fb : Option ℚ)
    (hne : pyUpper f ≠ pyUpper t) :
    fx_rate_core src f t d fb = none ↔
      ¬ truthyRate (src.cache (pyUpper f) (pyUpper t) d)
      ∧ ¬ truthyRate (src.api (pyUpper f) (pyUpper t) d)
      ∧ ¬ truthyRate fb
      ∧ ¬ truthyRate (src.manual (pyUpper f) (pyUpper t)) := by
  unfold fx_rate_core
  rw [if_neg hne]
  by_cases h1 : truthyRate (src.cache (pyUpper f) (pyUpper t) d) = true
  · obtain ⟨q, hq⟩ := truthyRate_some h1
    rw [if_pos h1, hq]
    constructor
    · intro h; cases h
    · rintro ⟨hc, -, -, -⟩; exact absurd (hq ▸ h1) hc
  · rw [if_neg h1]
    by_cases h2 : truthyRate (src.api (pyUpper f) (pyUpper t) d) = true
    · obtain ⟨q, hq⟩ := truthyRate_some h2
      rw [if_pos h2, hq]
      constructor
      · intro h; cases h
      · rintro ⟨-, ha, -, -⟩; exact absurd (hq ▸ h2) ha
    · rw [if_neg h2]
      by_cases h3 : truthyRate fb = true
      · obtain ⟨q, hq⟩ := truthyRate_some h3
        rw [if_pos h3, hq]
        constructor
        · intro h; cases h
        · rintro ⟨-, -, hf, -⟩; exact absurd (hq ▸ h3) hf
      · rw [if_neg h3]
        by_cases h4 : truthyRate (src.manual (pyUpper f) (pyUpper t)) = true
        · obtain ⟨q, hq⟩ := truthyRate_some h4
          rw [if_pos h4, hq]
          constructor
          · intro h; cases h
          · rintro ⟨-, -, -, hm⟩; exact absurd (hq ▸ h4) hm
        · rw [if_neg h4]
          simp [h1, h2, h3, h4]

theorem fx_rate_core_some (src : FxSources) (f t : String) (d : Int) (fb : Option ℚ)
    (hne : pyUpper f ≠ pyUpper t) (r : ℚ) (h : fx_rate_core src f t d fb = some r) :
    src.cache (pyUpper f) (pyUpper t) d = some r
    ∨ src.api (pyUpper f) (pyUpper t) d = some r
    ∨ fb = some r
    ∨ src.manual (pyUpper f) (pyUpper t) = some r := by
  unfold fx_rate_core at h
  rw [if_neg hne] at h
  by_cases h1 : truthyRate (src.cache (pyUpper f) (pyUpper t) d) = true
  · rw [if_pos h1] at h
    exact Or.inl h
  · rw [if_neg h1] at h
    by_cases h2 : truthyRate (src.api (pyUpper f) (pyUpper t) d) = true
    · rw [if_pos h2] at h
      exact Or.inr (Or.inl h)
    · rw [if_neg h2] at h
      by_cases h3 : truthyRate fb = true
      · rw [if_pos h3] at h
        exact Or.inr (Or.inr (Or.inl h))
      · rw [if_neg h3] at h
        by_cases h4 : truthyRate (src.manual (pyUpper f) (pyUpper t)) = true
        · rw [if_pos h4] at h
          exact Or.inr (Or.inr (Or.inr h))
        · rw [if_neg h4] at h
          cases h

theorem fx_rate_core_truthy (src : FxSources) (f t : String) (d : Int) (fb : Option ℚ) :
    fx_rate_core src f t d fb = none ∨ truthyRate (fx_rate_core src f t d fb) = true := by
  unfold fx_rate_core
  by_cases h0 : pyUpper f = pyUpper t
  · rw [if_pos h0]
    right
    decide
  · rw [if_neg h0]
    by_cases h1 : truthyRate (src.cache (pyUpper f) (pyUpper t) d) = true
    · rw [if_pos h1]; right; exact h1
    · rw [if_neg h1]
      by_cases h2 : truthyRate (src.api (pyUpper f) (pyUpper t) d) = true
      · rw [if_pos h2]; right; exact h2
      · rw [if_neg h2]
        by_cases h3 : truthyRate fb = true
        · rw [if_pos h3]; right; exact h3
        · rw [if_neg h3]
          by_cases h4 : truthyRate (src.manual (pyUpper f) (pyUpper t)) = true
          · rw [if_pos h4]; right; exact h4
          · rw [if_neg h4]; left; rfl

theorem fx_rate_truthy (src : FxSources) (f t : String) (d : Int) (fd : Nat) :
    fx_rate src f t d fd = none ∨ truthyRate (fx_rate src f t d fd) = true := by
  cases fd with
  | zero => exact fx_rate_core_truthy src f t d none
  | succ n => exact fx_rate_core_truthy src f t d (fx_rate src f t (d - 1) n)

/--
C5: for a pair of distinct (upper-cased) currencies, `fx_rate` raises (returns
`none`) exactly when the cache and the API miss on the requested day and on
every fallback day and no manual Currency Exchange record is truthy; and any
rate it does return was read from the cache or the API of one of those days or
from the manual record — never a silent default such as 1.0.
-/
theorem fx_rate_missing_iff (src : FxSources) (f t : String)
    (hne : pyUpper f ≠ pyUpper t) (fd : Nat) :
    ∀ d : Int,
    (fx_rate src f t d fd = none ↔
      ((∀ k : Nat, k ≤ fd →
          ¬ truthyRate (src.cache (pyUpper f) (pyUpper t) (d - k))
          ∧ ¬ truthyRate (src.api (pyUpper f) (pyUpper t) (d - k)))
        ∧ ¬ truthyRate (src.manual (pyUpper f) (pyUpper t))))
    ∧ (∀ r : ℚ, fx_rate src f t d fd = some r →
        ((∃ k : Nat, k ≤ fd ∧
            (src.cache (pyUpper f) (pyUpper t) (d - k) = some r
              ∨ src.api (pyUpper f) (pyUpper t) (d - k) = some r))
          ∨ src.manual (pyUpper f) (pyUpper t) = some r)) := by
  induction fd with
  | zero =>
    intro d
    constructor
    · rw [show fx_rate src f t d 0 = fx_rate_core src f t d none from rfl,
        fx_rate_core_none_iff src f t d none hne]
      constructor
      · rintro ⟨hc, ha, -, hm⟩
        refine ⟨?_, hm⟩
        intro k hk
        have hk0 : k = 0 := Nat.le_zero.mp hk
        subst hk0
        constructor
        · simpa using hc
        · simpa using ha
      · rintro ⟨hall, hm⟩
        have h0 := hall 0 (Nat.le_refl 0)
        simp only [Nat.cast_zero, sub_zero] at h0
        exact ⟨h0.1, h0.2, by simp [truthyRate], hm⟩
    · intro r hr
      have h := fx_rate_core_some src f t d none hne r hr
      rcases h with h | h | h | h
      · exact Or.inl ⟨0, Nat.le_refl 0, Or.inl (by simpa using h)⟩
      · exact Or.inl ⟨0, Nat.le_refl 0, Or.inr (by simpa using h)⟩
      · cases h
      · exact Or.inr h
  | succ n ih =>
    intro d
    have hrec := ih (d - 1)
    have hfuel : fx_rate src f t d (n + 1)
        = fx_rate_core src f t d (fx_rate src f t (d - 1) n) := rfl
    have hshift : ∀ j : Nat, (d - 1) - (j : Int) = d - ((j + 1 : Nat) : Int) := by
      intro j
      push_cast
      ring
    constructor
    · rw [hfuel, fx_rate_core_none_iff src f t d (fx_rate src f t (d - 1) n) hne]
      constructor
      · rintro ⟨hc, ha, hfb, hm⟩
        have hrecnone : fx_rate src f t (d - 1) n = none := by
          rcases fx_rate_truthy src f t (d - 1) n with h | h
          · exact h
          · exact absurd h hfb
        have hprev := hrec.1.mp hrecnone
        refine ⟨?_, hm⟩
        intro k hk
        cases k with
        | zero =>
          constructor
          · simpa using hc
          · simpa using ha
        | succ j =>
          have hj : j ≤ n := Nat.succ_le_succ_iff.mp hk
          have hpj := hprev.1 j hj
          rw [hshift j] at hpj
          exact hpj
      · rintro ⟨hall, hm⟩
        have h0 := hall 0 (Nat.zero_le _)
        simp only [Nat.cast_zero, sub_zero] at h0
        have hrecnone : fx_rate src f t (d - 1) n = none := by
          apply hrec.1.mpr
          refine ⟨?_, hm⟩
          intro j hj
          have := hall (j + 1) (Nat.succ_le_succ hj)
          rw [← hshift j] at this
          exact this
        refine ⟨h0.1, h0.2, ?_, hm⟩
        rw [hrecnone]
        simp [truthyRate]
    · intro r hr
      rw [hfuel] at hr
      have h := fx_rate_core_some src f t d (fx_rate src f t (d - 1) n) hne r hr
      rcases h with h | h | h | h
      · exact Or.inl ⟨0, Nat.zero_le _, Or.inl (by simpa using h)⟩
      · exact Or.inl ⟨0, Nat.zero_le _, Or.inr (by simpa using h)⟩
      · rcases hrec.2 r h with ⟨k, hk, hko⟩ | hmr
        · refine Or.inl ⟨k + 1, Nat.succ_le_succ hk, ?_⟩
          rw [← hshift k]
          exact hko
        · exact Or.inr hmr
      · exact Or.inr h

/-- Sources with no cached, API or manual rate at all. -/
def exFxEmpty : FxSources :=
  { cache := fun _ _ _ => none, api := fun _ _ _ => none, manual := fun _ _ => none }

theorem fx_rate_missing_iff_witness :
    fx_rate exFxEmpty "eur" "USD" 0 7 = none := by
  have h := (fx_rate_missing_iff exFxEmpty "eur" "USD" (by with_unfolding_all decide) 7 0).1
  apply h.mpr
  exact ⟨fun k hk => ⟨by simp [truthyRate, exFxEmpty], by simp [truthyRate, exFxEmpty]⟩,
    by simp [truthyRate, exFxEmpty]⟩

/-!
### C7 — fetch_settlement_rows normalization (source lines 371-389)
-/

/-- A Python dict of strings as an insertion-ordered association list with
unique keys. -/
abbrev StrDict := List (String × String)

/-- `d[k] = v`: replace in place when the key exists, else append. -/
def dset (k v : String) : StrDict → StrDict
  | [] => [(k, v)]
  | (k', v') :: t => if k' = k then (k, v) :: t else (k', v') :: dset k v t

/-- `d.get(k)`. -/
def dget (k : String) (d : StrDict) : Option String :=
  (d.find? (fun kv => kv.1 = k)).map Prod.snd

/-- `d.pop(k)`: keys are unique, so removal is a filter. -/
def dpop (k : String) (d : StrDict) : StrDict :=
  d.filter (fun kv => kv.1 ≠ k)

/-- `k.lower().strip()` applied to a column key (source line 373). -/
def lowKey (kv : String × String) : String := pyLower (pyStrip kv.1)

/-- `{k.lower().strip(): v for k, v in r.items()}` (source line 373): dict
comprehension, later duplicates overwrite earlier ones in place. -/
def lower_strip_keys (row : StrDict) : StrDict :=
  row.foldl (fun d kv => dset (lowKey kv) kv.2 d) []

/-- The value of the LAST entry of `row` whose lowered-stripped key is `k`. -/
def lastVal (k : String) (row : StrDict) : Option String :=
  (row.reverse.find? (fun kv => lowKey kv = k)).map Prod.snd

/-- `if space in r and hyph not in r: r[hyph] = r.pop(space).strip()`
(source lines 375-378): note the `.strip()` applied to the moved value. -/
def rename_variant (space hyph : String) (d : StrDict) : StrDict :=
  match dget space d with
  | none => d
  | some v => if (dget hyph d).isSome then d else dset hyph (pyStrip v) (dpop space d)

/-- Python `a or b` for an optional string against a default (empty and
missing strings are falsy). -/
def pyOrStr (a : Option String) (b : String) : String :=
  match a with
  | some s => if s = "" then b else s
  | none => b

/-- `(r.get("amount") or r.get("total-amount") or "").strip()` (source
line 381). -/
def raw_amount (d : StrDict) : String :=
  pyStrip (pyOrStr (dget "amount" d) (pyOrStr (dget "total-amount" d) ""))

/-- Numeric value of a digit list. -/
def digitsVal (cs : List Char) : ℕ :=
  cs.foldl (fun a c => a * 10 + (c.toNat - 48)) 0

/-- All characters are ASCII digits. -/
def allDigits (cs : List Char) : Bool := cs.all Char.isDigit

/-- Split at the first dot: integer part and optional fractional part. -/
def splitDot : List Char → (List Char × Option (List Char))
  | [] => ([], none)
  | c :: t =>
    if c = '.' then ([], some t)
    else ((splitDot t).1.cons c, (splitDot t).2)

/-- The decimal fragment of Python `float(s)` for an unsigned string:
digits with an optional dot, at least one digit; anything else (such as a
comma) raises `ValueError`, modeled as `none`. -/
def pyFloatCore (cs : List Char) : Option ℚ :=
  match splitDot cs with
  | (ip, none) => if ip ≠ [] && allDigits ip then some ((digitsVal ip : ℤ) : ℚ) else none
  | (ip, some fp) =>
    if (ip ≠ [] || fp ≠ []) && allDigits ip && allDigits fp then
      some (mkRat (digitsVal ip * 10 ^ fp.length + digitsVal fp) (10 ^ fp.length))
    else none

/-- Python `float(s)` on a stripped string: optional sign then the decimal
fragment; `none` models `ValueError`. -/
def pyFloat? (s : String) : Option ℚ :=
  match s.data with
  | [] => none
  | '+' :: t => pyFloatCore t
  | '-' :: t => (pyFloatCore t).map Neg.neg
  | cs => pyFloatCore cs

/-- `r["amount"] = float(raw_amt) if raw_amt else 0.0` with
`except ValueError: r["amount"] = 0.0` (source lines 382-385). -/
def amount_val (d : StrDict) : ℚ :=
  if raw_amount d = "" then 0
  else
    match pyFloat? (raw_amount d) with
    | some q => q
    | none => 0

/-- The dict after key lowering/stripping and both header-variant renames
(source lines 373-378). -/
def normalized_dict (row : StrDict) : StrDict :=
  rename_variant "amount description" "amount-description"
    (rename_variant "amount type" "amount-type" (lower_strip_keys row))

/-- A normalized row: its text columns and its numeric `amount`. -/
structure CanonRow where
  textFields : StrDict
  amount : ℚ
deriving Repr, DecidableEq

/-- `fetch_settlement_rows` normalization of one CSV row (source lines
371-387). -/
def normalize_row (row : StrDict) : CanonRow :=
  { textFields := dpop "amount" (normalized_dict row)
    amount := amount_val (normalized_dict row) }

/-- Two canonical rows are the same Python dict: pointwise equal text fields
and equal amount. -/
def canonRowEquiv (a b : CanonRow) : Prop :=
  (∀ k, dget k a.textFields = dget k b.textFields) ∧ a.amount = b.amount

theorem dget_dset_self (k v : String) (d : StrDict) : dget k (dset k v d) = some v := by
  induction d with
  | nil => simp [dget, dset, List.find?]
  | cons kv t ih =>
    obtain ⟨k', v'⟩ := kv
    by_cases h : k' = k
    · simp [dget, dset, List.find?, h]
    · simp [dget, dset, List.find?, h] at ih ⊢
      exact ih

theorem dget_dset_ne {q k v : String} (h : q ≠ k) (d : StrDict) :
    dget q (dset k v d) = dget q d := by
  have h2 : ¬ k = q := fun hc => h hc.symm
  induction d with
  | nil => simp [dget, dset, List.find?, h2]
  | cons kv t ih =>
    obtain ⟨k', v'⟩ := kv
    by_cases h1 : k' = k
    · simp [dget, dset, List.find?, h1, h2]
    · by_cases h3 : k' = q
      · simp [dget, dset, List.find?, h1, h3, h, h2]
      · simp [dget, dset, List.find?, h1, h3] at ih ⊢
        exact ih

theorem dget_dpop_self (k : String) (d : StrDict) : dget k (dpop k d) = none := by
  unfold dget dpop
  have h : List.find? (fun kv => kv.1 = k) (d.filter (fun kv => kv.1 ≠ k)) = none := by
    rw [List.find?_eq_none]
    intro x hx
    have hxp := List.of_mem_filter hx
    simp only [decide_eq_true_eq] at hxp ⊢
    exact hxp
  rw [h]
  rfl

theorem dget_dpop_ne {q k : String} (h : q ≠ k) (d : StrDict) :
    dget q (dpop k d) = dget q d := by
  induction d with
  | nil => rfl
  | cons kv t ih =>
    have hkq : ¬ k = q := fun hc => h hc.symm
    by_cases hkv : kv.1 = k
    · have hne : ¬ kv.1 = q := by rw [hkv]; exact fun hc => h hc.symm
      simp [dget, dpop, List.filter_cons, List.find?, hkv, hne, hkq] at ih ⊢
      exact ih
    · by_cases hk' : kv.1 = q
      · simp [dget, dpop, List.filter_cons, List.find?, hkv, hk', h, hkq]
      · simp [dget, dpop, List.filter_cons, List.find?, hkv, hk'] at ih ⊢
        exact ih

theorem find?_append_some {α : Type} {p : α → Bool} {l₁ : List α} {a : α} (l₂ : List α)
    (h : l₁.find? p = some a) : (l₁ ++ l₂).find? p = some a := by
  induction l₁ with
  | nil => cases h
  | cons x t ih =>
    by_cases hx : p x = true
    · rw [List.find?_cons_of_pos _ hx] at h
      rw [List.cons_append, List.find?_cons_of_pos _ hx]
      exact h
    · rw [List.find?_cons_of_neg _ hx] at h
      rw [List.cons_append, List.find?_cons_of_neg _ hx]
      exact ih h

theorem find?_append_none {α : Type} {p : α → Bool} {l₁ : List α} (l₂ : List α)
    (h : l₁.find? p = none) : (l₁ ++ l₂).find? p = l₂.find? p := by
  induction l₁ with
  | nil => rfl
  | cons x t ih =>
    by_cases hx : p x = true
    · rw [List.find?_cons_of_pos _ hx] at h
      cases h
    · rw [List.find?_cons_of_neg _ hx] at h
      rw [List.cons_append, List.find?_cons_of_neg _ hx]
      exact ih h

theorem lastVal_cons (k : String) (kv : String × String) (t : StrDict) :
    lastVal k (kv :: t)
      = (lastVal k t).or (if lowKey kv = k then some kv.2 else none) := by
  unfold lastVal
  rw [List.reverse_cons]
  cases hf : t.reverse.find? (fun x => lowKey x = k) with
  | some x =>
    rw [find?_append_some _ hf]
    rfl
  | none =>
    rw [find?_append_none _ hf]
    by_cases h : lowKey kv = k
    · simp [List.find?, h]
    · simp [List.find?, h]

theorem dget_foldl_dset (k : String) (row : StrDict) :
    ∀ init : StrDict,
    dget k (row.foldl (fun d kv => dset (lowKey kv) kv.2 d) init)
      = (lastVal k row).or (dget k init) := by
  induction row with
  | nil =>
    intro init
    cases h : dget k init <;> simp [lastVal, Option.or, h]
  | cons kv t ih =>
    intro init
    rw [List.foldl_cons, ih, lastVal_cons]
    by_cases h : lowKey kv = k
    · rw [if_pos h, h, dget_dset_self]
      cases hl : lastVal k t <;> rfl
    · rw [if_neg h, dget_dset_ne (fun hc => h hc.symm)]
      cases hl : lastVal k t <;> rfl

theorem dget_lower_strip_keys (k : String) (row : StrDict) :
    dget k (lower_strip_keys row) = lastVal k row := by
  unfold lower_strip_keys
  rw [dget_foldl_dset]
  cases lastVal k row <;> rfl

theorem rename_variant_no_space {space hyph : String} {d : StrDict}
    (h : dget space d = none) : rename_variant space hyph d = d := by
  unfold rename_variant
  rw [h]

theorem rename_variant_apply {space hyph : String} {d : StrDict} {v : String}
    (h : dget space d = some v) (h2 : dget hyph d = none) :
    rename_variant space hyph d = dset hyph (pyStrip v) (dpop space d) := by
  unfold rename_variant
  rw [h, h2]
  rfl

theorem raw_amount_congr {a b : StrDict}
    (h : ∀ k, dget k a = dget k b) : raw_amount a = raw_amount b := by
  unfold raw_amount
  rw [h "amount", h "total-amount"]

theorem amount_val_congr {a b : StrDict}
    (h : ∀ k, dget k a = dget k b) : amount_val a = amount_val b := by
  unfold amount_val
  rw [raw_amount_congr h]

theorem amount_val_parse_fail {d : StrDict}
    (h : pyFloat? (raw_amount d) = none) : amount_val d = 0 := by
  unfold amount_val
  by_cases he : raw_amount d = ""
  · rw [if_pos he]
  · rw [if_neg he, h]

theorem lastVal_eq_none {k : String} {row : StrDict}
    (h : ∀ kv ∈ row, lowKey kv ≠ k) : lastVal k row = none := by
  unfold lastVal
  have hf : row.reverse.find? (fun kv => lowKey kv = k) = none := by
    rw [List.find?_eq_none]
    intro x hx
    simp only [decide_eq_true_eq]
    exact h x (List.mem_reverse.mp hx)
  rw [hf]
  rfl

/--
C7 counterexample: two rows identical except for the header variant do NOT
always normalize identically — the space-variant value is `.strip()`ed during
the rename while the hyphen-variant value is kept verbatim, so the value
`" Order "` yields different canonical rows.
-/
theorem normalize_variant_counterexample :
    ¬ canonRowEquiv (normalize_row [("amount type", " Order ")])
        (normalize_row [("amount-type", " Order ")]) := by
  intro h
  exact absurd (h.1 "amount-type") (by with_unfolding_all decide)

theorem dget_lsk_cons2 (k a b v w : String) (rest : StrDict) :
    dget k (lower_strip_keys ((a, v) :: (b, w) :: rest))
      = ((lastVal k rest).or (if pyLower (pyStrip b) = k then some w else none)).or
        (if pyLower (pyStrip a) = k then some v else none) := by
  rw [dget_lower_strip_keys, lastVal_cons, lastVal_cons]
  rfl

theorem normalized_dict_variant_pointwise (v w : String) (rest : StrDict)
    (hv : pyStrip v = v) (hw : pyStrip w = w)
    (hrest : ∀ kv ∈ rest, lowKey kv ≠ "amount type" ∧ lowKey kv ≠ "amount-type"
      ∧ lowKey kv ≠ "amount description" ∧ lowKey kv ≠ "amount-description") :
    ∀ k, dget k (normalized_dict (("amount type", v) :: ("amount description", w) :: rest))
      = dget k (normalized_dict (("amount-type", v) :: ("amount-description", w) :: rest)) := by
  have hcAT : pyLower (pyStrip "amount type") = "amount type" := by with_unfolding_all rfl
  have hcAD : pyLower (pyStrip "amount description") = "amount description" := by
    with_unfolding_all rfl
  have hcATH : pyLower (pyStrip "amount-type") = "amount-type" := by with_unfolding_all rfl
  have hcADH : pyLower (pyStrip "amount-description") = "amount-description" := by
    with_unfolding_all rfl
  have hS_AT : dget "amount type"
      (lower_strip_keys (("amount type", v) :: ("amount description", w) :: rest)) = some v := by
    rw [dget_lsk_cons2, hcAD, hcAT,
      lastVal_eq_none (fun kv hkv => (hrest kv hkv).1),
      if_neg (show ¬ ("amount description" : String) = "amount type" by with_unfolding_all decide),
      if_pos rfl]
    rfl
  have hS_ATH : dget "amount-type"
      (lower_strip_keys (("amount type", v) :: ("amount description", w) :: rest)) = none := by
    rw [dget_lsk_cons2, hcAD, hcAT,
      lastVal_eq_none (fun kv hkv => (hrest kv hkv).2.1),
      if_neg (show ¬ ("amount description" : String) = "amount-type" by with_unfolding_all decide),
      if_neg (show ¬ ("amount type" : String) = "amount-type" by with_unfolding_all decide)]
    rfl
  have hS_AD : dget "amount description"
      (lower_strip_keys (("amount type", v) :: ("amount description", w) :: rest)) = some w := by
    rw [dget_lsk_cons2, hcAD, hcAT,
      lastVal_eq_none (fun kv hkv => (hrest kv hkv).2.2.1),
      if_pos rfl,
      if_neg (show ¬ ("amount type" : String) = "amount description" by with_unfolding_all decide)]
    rfl
  have hS_ADH : dget "amount-description"
      (lower_strip_keys (("amount type", v) :: ("amount description", w) :: rest)) = none := by
    rw [dget_lsk_cons2, hcAD, hcAT,
      lastVal_eq_none (fun kv hkv => (hrest kv hkv).2.2.2),
      if_neg (show ¬ ("amount description" : String) = "amount-description" by
        with_unfolding_all decide),
      if_neg (show ¬ ("amount type" : String) = "amount-description" by
        with_unfolding_all decide)]
    rfl
  have hH_AT : dget "amount type"
      (lower_strip_keys (("amount-type", v) :: ("amount-description", w) :: rest)) = none := by
    rw [dget_lsk_cons2, hcADH, hcATH,
      lastVal_eq_none (fun kv hkv => (hrest kv hkv).1),
      if_neg (show ¬ ("amount-description" : String) = "amount type" by with_unfolding_all decide),
      if_neg (show ¬ ("amount-type" : String) = "amount type" by with_unfolding_all decide)]
    rfl
  have hH_AD : dget "amount description"
      (lower_strip_keys (("amount-type", v) :: ("amount-description", w) :: rest)) = none := by
    rw [dget_lsk_cons2, hcADH, hcATH,
      lastVal_eq_none (fun kv hkv => (hrest kv hkv).2.2.1),
      if_neg (show ¬ ("amount-description" : String) = "amount description" by
        with_unfolding_all decide),
      if_neg (show ¬ ("amount-type" : String) = "amount description" by
        with_unfolding_all decide)]
    rfl
  have hD1_AD : dget "amount description"
      (dset "amount-type" v (dpop "amount type"
        (lower_strip_keys (("amount type", v) :: ("amount description", w) :: rest))))
      = some w := by
    rw [dget_dset_ne (show ("amount description" : String) ≠ "amount-type" by
        with_unfolding_all decide),
      dget_dpop_ne (show ("amount description" : String) ≠ "amount type" by
        with_unfolding_all decide),
      hS_AD]
  have hD1_ADH : dget "amount-description"
      (dset "amount-type" v (dpop "amount type"
        (lower_strip_keys (("amount type", v) :: ("amount description", w) :: rest))))
      = none := by
    rw [dget_dset_ne (show ("amount-description" : String) ≠ "amount-type" by
        with_unfolding_all decide),
      dget_dpop_ne (show ("amount-description" : String) ≠ "amount type" by
        with_unfolding_all decide),
      hS_ADH]
  have hS : normalized_dict (("amount type", v) :: ("amount description", w) :: rest)
      = dset "amount-description" w (dpop "amount description"
          (dset "amount-type" v (dpop "amount type"
            (lower_strip_keys (("amount type", v) :: ("amount description", w) :: rest))))) := by
    unfold normalized_dict
    rw [rename_variant_apply hS_AT hS_ATH, hv, rename_variant_apply hD1_AD hD1_ADH, hw]
  have hH : normalized_dict (("amount-type", v) :: ("amount-description", w) :: rest)
      = lower_strip_keys (("amount-type", v) :: ("amount-description", w) :: rest) := by
    unfold normalized_dict
    rw [rename_variant_no_space hH_AT, rename_variant_no_space hH_AD]
  intro k
  rw [hS, hH]
  by_cases h1 : k = "amount-description"
  · subst h1
    rw [dget_dset_self, dget_lsk_cons2, hcADH, hcATH,
      lastVal_eq_none (fun kv hkv => (hrest kv hkv).2.2.2),
      if_pos rfl,
      if_neg (show ¬ ("amount-type" : String) = "amount-description" by
        with_unfolding_all decide)]
    rfl
  · rw [dget_dset_ne h1]
    by_cases h2 : k = "amount description"
    · subst h2
      rw [dget_dpop_self, dget_lsk_cons2, hcADH, hcATH,
        lastVal_eq_none (fun kv hkv => (hrest kv hkv).2.2.1),
        if_neg (show ¬ ("amount-description" : String) = "amount description" by
          with_unfolding_all decide),
        if_neg (show ¬ ("amount-type" : String) = "amount description" by
          with_unfolding_all decide)]
      rfl
    · rw [dget_dpop_ne h2]
      by_cases h3 : k = "amount-type"
      · subst h3
        rw [dget_dset_self, dget_lsk_cons2, hcADH, hcATH,
          lastVal_eq_none (fun kv hkv => (hrest kv hkv).2.1),
          if_neg (show ¬ ("amount-description" : String) = "amount-type" by
            with_unfolding_all decide),
          if_pos rfl]
        rfl
      · rw [dget_dset_ne h3]
        by_cases h4 : k = "amount type"
        · subst h4
          rw [dget_dpop_self, dget_lsk_cons2, hcADH, hcATH,
            lastVal_eq_none (fun kv hkv => (hrest kv hkv).1),
            if_neg (show ¬ ("amount-description" : String) = "amount type" by
              with_unfolding_all decide),
            if_neg (show ¬ ("amount-type" : String) = "amount type" by
              with_unfolding_all decide)]
          rfl
        · rw [dget_dpop_ne h4, dget_lsk_cons2, dget_lsk_cons2, hcAD, hcAT, hcADH, hcATH,
            if_neg (fun hc => h2 hc.symm), if_neg (fun hc => h4 hc.symm),
            if_neg (fun hc => h1 hc.symm), if_neg (fun hc => h3 hc.symm)]

/--
C7 (amended): row normalization never raises — an unparseable amount such as
"1,234.56" parses to `none` and yields the default 0 — and the space-variant
and hyphen-variant header spellings normalize to the identical canonical row
provided the variant columns' values carry no leading or trailing whitespace
(the space-variant value is stripped during the rename while the
hyphen-variant value is kept verbatim).
-/
theorem normalize_row_amended (v w : String) (rest : StrDict)
    (hv : pyStrip v = v) (hw : pyStrip w = w)
    (hrest : ∀ kv ∈ rest, lowKey kv ≠ "amount type" ∧ lowKey kv ≠ "amount-type"
      ∧ lowKey kv ≠ "amount description" ∧ lowKey kv ≠ "amount-description") :
    canonRowEquiv
      (normalize_row (("amount type", v) :: ("amount description", w) :: rest))
      (normalize_row (("amount-type", v) :: ("amount-description", w) :: rest))
    ∧ (∀ row : StrDict, pyFloat? (raw_amount (normalized_dict row)) = none →
        (normalize_row row).amount = 0)
    ∧ pyFloat? "1,234.56" = none := by
  refine ⟨⟨fun k => ?_, ?_⟩, fun row h => ?_, ?_⟩
  · show dget k (dpop "amount"
        (normalized_dict (("amount type", v) :: ("amount description", w) :: rest)))
      = dget k (dpop "amount"
        (normalized_dict (("amount-type", v) :: ("amount-description", w) :: rest)))
    by_cases hk : k = "amount"
    · subst hk
      rw [dget_dpop_self, dget_dpop_self]
    · rw [dget_dpop_ne hk, dget_dpop_ne hk]
      exact normalized_dict_variant_pointwise v w rest hv hw hrest k
  · exact amount_val_congr (normalized_dict_variant_pointwise v w rest hv hw hrest)
  · exact amount_val_parse_fail h
  · with_unfolding_all decide

/-- Extra columns for the amended-claim witness, including the unparseable
amount "1,234.56". -/
def exNormRest : StrDict := [("amount", "1,234.56"), ("currency", "USD")]

theorem normalize_row_amended_witness :
    canonRowEquiv
      (normalize_row (("amount type", "Order") :: ("amount description", "Desc") :: exNormRest))
      (normalize_row (("amount-type", "Order") :: ("amount-description", "Desc") :: exNormRest))
    ∧ (∀ row : StrDict, pyFloat? (raw_amount (normalized_dict row)) = none →
        (normalize_row row).amount = 0)
    ∧ pyFloat? "1,234.56" = none :=
  normalize_row_amended "Order" "Desc" exNormRest (by with_unfolding_all rfl)
    (by with_unfolding_all rfl) (by with_unfolding_all decide)

/-!
### C3 — allocate_late_documents_for_settlement (source lines 1518-1665)

The database state is a `Ledger` of Journal Entries and Sales Invoices.
A JE account line's `reference_type = 'Sales Invoice'` together with its
`reference_name` is one optional field `ref` (the pass only ever writes that
one type).  Credit-note construction (items, SKUs, totals) is abstracted by
an oracle giving the outstanding amount of a successfully created CN, or
`none` when creation fails or returns `None`.
-/

/-- A Journal Entry Account row (the fields the allocation pass reads or
writes). -/
structure JEALine2 where
  id : ℕ
  amazonOrderId : String
  creditInAcct : ℚ
  debitInAcct : ℚ
  ref : Option ℕ
deriving Repr, DecidableEq

/-- A Journal Entry (the fields the allocation pass reads). -/
structure JERec where
  id : ℕ
  chequeNo : String
  docstatus : ℕ
  lines : List JEALine2
deriving Repr, DecidableEq

/-- A Sales Invoice or Credit Note (`is_return = 1`). -/
structure SIRec where
  id : ℕ
  amazonOrderId : String
  isReturn : Bool
  docstatus : ℕ
  outstanding : ℚ
  returnAgainst : Option ℕ
  reportId : String
  company : String
  postingDate : ℕ
deriving Repr, DecidableEq

/-- The database state. -/
structure Ledger where
  jes : List JERec
  sis : List SIRec
  nextId : ℕ
deriving Repr, DecidableEq

/-- `get_value("Journal Entry", {"cheque_no": rpt_id, "docstatus": 1}, "name")`
(source line 1519). -/
def findJE (led : Ledger) (rpt : String) : Option ℕ :=
  (led.jes.find? (fun je => je.chequeNo = rpt && je.docstatus == 1)).map JERec.id

/-- Fetch a Journal Entry by name. -/
def findJEById (led : Ledger) (i : ℕ) : Option JERec :=
  led.jes.find? (fun je => je.id == i)

/-- The account lines of a Journal Entry. -/
def jeLines (led : Ledger) (i : ℕ) : List JEALine2 :=
  ((findJEById led i).map JERec.lines).getD []

/-- Fetch a Sales Invoice by name. -/
def findSIById (led : Ledger) (i : ℕ) : Option SIRec :=
  led.sis.find? (fun si => si.id == i)

/-- `get_value("Sales Invoice", name, "outstanding_amount")`. -/
def outstandingOf (led : Ledger) (i : ℕ) : ℚ :=
  ((findSIById led i).map SIRec.outstanding).getD 0

/-- The row with maximal posting date (`order_by="posting_date desc"`,
first row returned). -/
def latestBy (cands : List SIRec) : Option SIRec :=
  cands.foldl (fun acc si =>
    match acc with
    | none => some si
    | some best => if best.postingDate < si.postingDate then some si else some best) none

/-- `get_sales_invoice` (source lines 50-60): latest submitted non-return SI
for the order, even with outstanding 0. -/
def get_sales_invoice (led : Ledger) (o : String) : Option ℕ :=
  (latestBy (led.sis.filter (fun si =>
    si.amazonOrderId = o && si.docstatus == 1 && !si.isReturn))).map SIRec.id

/-- Stable insertion into a list sorted by `(posting_date, name)` ascending. -/
def insertSorted (si : SIRec) : List SIRec → List SIRec
  | [] => [si]
  | x :: t =>
    if si.postingDate < x.postingDate ∨ (si.postingDate = x.postingDate ∧ si.id < x.id)
    then si :: x :: t else x :: insertSorted si t

/-- Sort by `(posting_date, name)` ascending. -/
def sortCNs (l : List SIRec) : List SIRec := l.foldl (fun acc si => insertSorted si acc) []

/-- `get_open_credit_notes_for_order` (source lines 394-406): submitted
returns with `outstanding_amount < -0.01`, ordered by posting date then
name. -/
def get_open_credit_notes_for_order (led : Ledger) (o : String) : List ℕ :=
  (sortCNs (led.sis.filter (fun si =>
    si.amazonOrderId = o && si.isReturn && si.docstatus == 1
      && decide (si.outstanding < -(mkRat 1 100))))).map SIRec.id

/-- `is_already_referenced_by_report` (source lines 420-438): the target's
order id must be nonempty and some submitted JE whose `cheque_no` starts with
the report id must carry a line referencing the target with that order id. -/
def is_already_referenced_by_report (led : Ledger) (rpt : String) (refId : ℕ) : Bool :=
  match findSIById led refId with
  | none => false
  | some si =>
    if si.amazonOrderId = "" then false
    else led.jes.any (fun je => je.docstatus == 1
      && startsWithChars je.chequeNo.data rpt.data
      && je.lines.any (fun l => l.ref == some refId && l.amazonOrderId = si.amazonOrderId))

/-- The per-line effect of `db.set_value("Journal Entry Account", line_name,
{reference_type, reference_name})`. -/
def updLine (lineId refId : ℕ) (l : JEALine2) : JEALine2 :=
  if l.id == lineId then { l with ref := some refId } else l

/-- Apply the line update across the database. -/
def setLineRef (led : Ledger) (lineId refId : ℕ) : Ledger :=
  { led with jes := led.jes.map (fun je => { je with lines := je.lines.map (updLine lineId refId) }) }

/-- `SUM(credit) - SUM(debit)` over the JE's lines with this order id and
`reference_type = 'Sales Invoice'` (source lines 1547-1551). -/
def salesApplied (led : Ledger) (jeId : ℕ) (o : String) : ℚ :=
  (((jeLines led jeId).filter (fun l => l.amazonOrderId = o && l.ref.isSome)).map
    (fun l => l.creditInAcct - l.debitInAcct)).sum

/-- `SUM(debit) - SUM(credit)` over the same lines (source lines 1593-1597). -/
def refundApplied (led : Ledger) (jeId : ℕ) (o : String) : ℚ :=
  (((jeLines led jeId).filter (fun l => l.amazonOrderId = o && l.ref.isSome)).map
    (fun l => l.debitInAcct - l.creditInAcct)).sum

/-- First unreferenced AR credit line of the JE for the order (source lines
1571-1574). -/
def unref_credit_line (led : Ledger) (jeId : ℕ) (o : String) : Option ℕ :=
  ((jeLines led jeId).find? (fun l =>
    l.amazonOrderId = o && decide (0 < l.creditInAcct) && l.ref == none)).map JEALine2.id

/-- First unreferenced AR debit line of the JE for the order (source lines
1620-1623 and 1647-1650). -/
def unref_debit_line (led : Ledger) (jeId : ℕ) (o : String) : Option ℕ :=
  ((jeLines led jeId).find? (fun l =>
    l.amazonOrderId = o && decide (0 < l.debitInAcct) && l.ref == none)).map JEALine2.id

/-- The `frappe.db.exists` key of the CN idempotency check (source lines
504-511). -/
def cnKey (siId : ℕ) (o company rptId : String) (cn : SIRec) : Bool :=
  cn.returnAgainst == some siId && cn.amazonOrderId = o && cn.company = company
    && cn.docstatus == 1 && cn.isReturn && cn.reportId = rptId

/-- The freshly inserted and submitted Credit Note (source lines 534-664):
linked to the invoice, carrying the order id, the settlement report id and
the posting date, with the outstanding amount produced by the build. -/
def mkFreshCN (nid : ℕ) (o : String) (outst : ℚ) (siId : ℕ) (rptId company : String)
    (postDt : ℕ) : SIRec :=
  { id := nid
    amazonOrderId := o
    isReturn := true
    docstatus := 1
    outstanding := outst
    returnAgainst := some siId
    reportId := rptId
    company := company
    postingDate := postDt }

/-- `create_credit_note_for_refund` (source lines 473-671), reduced to its
ledger effect: `none` results model every path that returns `None` (missing
invoice, credit-note input, no refund rows, failed build — the oracle).  On
success a fresh submitted CN is appended with the oracle's outstanding
amount. -/
def create_credit_note_for_refund (oracle : ℕ → List SRow → Option ℚ) (led : Ledger)
    (rptId : String) (siId : ℕ) (postDt : ℕ) (o : String) (refundRows : List SRow) :
    Ledger × Option ℕ :=
  match findSIById led siId with
  | none => (led, none)
  | some si =>
    if si.isReturn then (led, none)
    else
      if (refundRows.filter (fun r => pyLower r.transactionType = "refund")).isEmpty then
        (led, none)
      else if led.sis.any (cnKey siId o si.company rptId) then
        (led, (led.sis.find? (cnKey siId o si.company rptId)).map SIRec.id)
      else
        match oracle led.nextId (refundRows.filter (fun r => pyLower r.transactionType = "refund")) with
        | none => (led, none)
        | some outst =>
          ({ led with
              sis := led.sis ++ [mkFreshCN led.nextId o outst siId rptId si.company postDt],
              nextId := led.nextId + 1 },
            some led.nextId)

/-- One iteration of the sales allocation loop (source lines 1543-1587). -/
def sales_step (rptId : String) (jeId : ℕ) (led : Ledger) (e : String × ℚ) : Ledger :=
  if |e.2| < mkRat 1 100 then led
  else
    if e.2 - salesApplied led jeId e.1 < mkRat 1 100 then led
    else
      match get_sales_invoice led e.1 with
      | none => led
      | some siId =>
        if is_already_referenced_by_report led rptId siId then led
        else
          if min (e.2 - salesApplied led jeId e.1) (outstandingOf led siId) < mkRat 1 100
          then led
          else
            match unref_credit_line led jeId e.1 with
            | none => led
            | some lineId => setLineRef led lineId siId

/-- The `if si_name and refund_rows:` block of the refund loop (source lines
1611-1637): create (or fetch) the CN and allocate an unreferenced debit line
to it.  Returns the new state, the remaining `refund_to_apply`, and whether
the `continue` at source line 1637 fires (skipping the residual loop). -/
def new_cn_block (oracle : ℕ → List SRow → Option ℚ) (rptId : String) (jeId : ℕ)
    (postDt : ℕ) (o : String) (refundRows : List SRow) (led : Ledger) (rta : ℚ) :
    Ledger × ℚ × Bool :=
  match get_sales_invoice led o with
  | none => (led, rta, false)
  | some siId =>
    if refundRows.isEmpty then (led, rta, false)
    else
      match create_credit_note_for_refund oracle led rptId siId postDt o refundRows with
      | (led₁, none) => (led₁, rta, false)
      | (led₁, some cnId) =>
        if is_already_referenced_by_report led₁ rptId cnId then (led₁, rta, false)
        else
          if mkRat 1 100 < min rta |outstandingOf led₁ cnId| then
            match unref_debit_line led₁ jeId o with
            | none => (led₁, rta, false)
            | some lineId =>
              (setLineRef led₁ lineId cnId, rta - min rta |outstandingOf led₁ cnId|,
                decide (rta - min rta |outstandingOf led₁ cnId| < mkRat 1 100))
          else (led₁, rta, false)

/-- The residual allocation loop over open credit notes (source lines
1638-1665), with its `break` when the remainder drops below 0.01. -/
def residual_loop (rptId : String) (jeId : ℕ) (o : String) :
    Ledger → ℚ → List ℕ → Ledger
  | led, _, [] => led
  | led, rta, cn :: rest =>
    if is_already_referenced_by_report led rptId cn then
      residual_loop rptId jeId o led rta rest
    else
      if min rta |outstandingOf led cn| < mkRat 1 100 then
        residual_loop rptId jeId o led rta rest
      else
        match unref_debit_line led jeId o with
        | none => residual_loop rptId jeId o led rta rest
        | some lineId =>
          if rta - min rta |outstandingOf led cn| < mkRat 1 100 then
            setLineRef led lineId cn
          else
            residual_loop rptId jeId o (setLineRef led lineId cn)
              (rta - min rta |outstandingOf led cn|) rest

/-- One iteration of the refund allocation loop (source lines 1589-1665). -/
def refund_step (oracle : ℕ → List SRow → Option ℚ) (rptId : String) (jeId : ℕ)
    (postDt : ℕ) (groups : List (String × List SRow)) (led : Ledger) (e : String × ℚ) :
    Ledger :=
  if |e.2| < mkRat 1 100 then led
  else
    if e.2 - refundApplied led jeId e.1 < mkRat 1 100 then led
    else
      match new_cn_block oracle rptId jeId postDt e.1
        (((alookup e.1 groups).getD []).filter (fun r => REFUND_TYPES.contains (rowTType r)))
        led (e.2 - refundApplied led jeId e.1) with
      | (led₁, rta₁, stop) =>
        if stop then led₁
        else residual_loop rptId jeId e.1 led₁ rta₁ (get_open_credit_notes_for_order led₁ e.1)

/-- `allocate_late_documents_for_settlement` (source lines 1518-1665):
no-op without a submitted first-pass JE; otherwise recompute the per-order
sales and refund totals (0.01 noise filter) and run the sales loop, then the
refund loop. -/
def allocate_late_documents_for_settlement (oracle : ℕ → List SRow → Option ℚ)
    (rptId : String) (groups : List (String × List SRow)) (postDt : ℕ) (led : Ledger) :
    Ledger :=
  match findJE led rptId with
  | none => led
  | some jeId =>
    let led₁ := (groups.filterMap (fun og =>
      if |salesSumOf og.2| ≥ mkRat 1 100 then some (og.1, salesSumOf og.2) else none)).foldl
        (sales_step rptId jeId) led
    (groups.filterMap (fun og =>
      if |refundSumOf og.2| ≥ mkRat 1 100 then some (og.1, refundSumOf og.2) else none)).foldl
        (refund_step oracle rptId jeId postDt groups) led₁

/-- The oracle of a credit-note build that never succeeds. -/
def cexOracle : ℕ → List SRow → Option ℚ := fun _ _ => none

/-- Sales row of order "A": +12. -/
def cexRowSale : SRow :=
  { transactionType := "Order", orderId := "A", amountDescription := "", amountType := "",
    amount := 12, currency := "USD", marketplaceName := "", merchantOrderId := "" }

/-- Refund row of order "A": −100. -/
def cexRowRefund : SRow :=
  { transactionType := "Refund", orderId := "A", amountDescription := "", amountType := "",
    amount := -100, currency := "USD", marketplaceName := "", merchantOrderId := "" }

/-- One order with sales 12 and refund magnitude 100. -/
def cexGroups : List (String × List SRow) := [("A", [cexRowSale, cexRowRefund])]

/-- The submitted first-pass JE of report "RPT": an AR credit line of 12 and
two unreferenced AR debit lines (100 and 1) for order "A". -/
def cexJE : JERec :=
  { id := 1, chequeNo := "RPT", docstatus := 1,
    lines := [
      { id := 10, amazonOrderId := "A", creditInAcct := 12, debitInAcct := 0, ref := none },
      { id := 11, amazonOrderId := "A", creditInAcct := 0, debitInAcct := 100, ref := none },
      { id := 12, amazonOrderId := "A", creditInAcct := 0, debitInAcct := 1, ref := none }] }

/-- A ledger with the JE above, one submitted invoice (outstanding 12) and two
open credit notes (outstanding −112 and −50), none touched by report "RPT". -/
def cexLedger : Ledger :=
  { jes := [cexJE],
    sis := [
      { id := 100, amazonOrderId := "A", isReturn := false, docstatus := 1, outstanding := 12,
        returnAgainst := none, reportId := "", company := "C", postingDate := 5 },
      { id := 101, amazonOrderId := "A", isReturn := true, docstatus := 1, outstanding := -112,
        returnAgainst := some 100, reportId := "X", company := "C", postingDate := 1 },
      { id := 102, amazonOrderId := "A", isReturn := true, docstatus := 1, outstanding := -50,
        returnAgainst := some 100, reportId := "X", company := "C", postingDate := 2 }],
    nextId := 200 }

/--
C3 counterexample: the late-allocation pass is NOT idempotent for arbitrary
ledger states.  On `cexLedger` the first run references the credit line to
invoice 100 and the 100-debit line to credit note 101, then stops (remainder
0); the rerun recomputes `refund_to_apply` (the referenced sales credit now
offsets the referenced debit), finds credit note 102 still unreferenced and
the 1-debit line still free, and attaches a third reference — an additional
allocation with no intervening state change.
-/
theorem allocate_late_not_idempotent :
    allocate_late_documents_for_settlement cexOracle "RPT" cexGroups 7
        (allocate_late_documents_for_settlement cexOracle "RPT" cexGroups 7 cexLedger)
      ≠ allocate_late_documents_for_settlement cexOracle "RPT" cexGroups 7 cexLedger := by
  with_unfolding_all decide

/-- All JE account-line names in the database. -/
def ledLineIds (led : Ledger) : List ℕ :=
  (led.jes.map (fun je => je.lines.map JEALine2.id)).flatten

/-- Database well-formedness: document names are unique and Sales Invoice
names stay below the name counter. -/
def Inv0 (led : Ledger) : Prop :=
  (ledLineIds led).Nodup
  ∧ (led.jes.map JERec.id).Nodup
  ∧ (led.sis.map SIRec.id).Nodup
  ∧ ∀ si ∈ led.sis, si.id < led.nextId

/-- Number of JE account lines referencing target `t`. -/
def refsTo (led : Ledger) (t : ℕ) : ℕ :=
  (led.jes.map (fun je => je.lines.countP (fun l => l.ref == some t))).sum

theorem startsWithChars_refl : ∀ l : List Char, startsWithChars l l = true := by
  intro l
  induction l with
  | nil => rfl
  | cons c t ih => simp [startsWithChars, ih]

theorem nodup_map_inj {α β : Type} {f : α → β} {l : List α}
    (h : (l.map f).Nodup) {x y : α} (hx : x ∈ l) (hy : y ∈ l) (hf : f x = f y) : x = y := by
  induction l with
  | nil => cases hx
  | cons a t ih =>
    rw [List.map_cons, List.nodup_cons] at h
    cases hx with
    | head =>
      cases hy with
      | head => rfl
      | tail _ hy => exact absurd (hf ▸ List.mem_map_of_mem f hy) h.1
    | tail _ hx =>
      cases hy with
      | head => exact absurd (hf ▸ List.mem_map_of_mem f hx) h.1
      | tail _ hy => exact ih h.2 hx hy

theorem line_id_unique_aux {jes : List JERec}
    (h : ((jes.map (fun je => je.lines.map JEALine2.id)).flatten).Nodup) :
    ∀ {je je' : JERec}, je ∈ jes → je' ∈ jes →
    ∀ {l l' : JEALine2}, l ∈ je.lines → l' ∈ je'.lines → l.id = l'.id → l = l' := by
  induction jes with
  | nil => intro je je' h1; cases h1
  | cons j rest ih =>
    intro je je' hje hje' l l' hl hl' hid
    rw [List.map_cons, List.flatten_cons, List.nodup_append] at h
    obtain ⟨hj, hrest, hdisj⟩ := h
    have hInRest : ∀ {k : JERec} {m : JEALine2}, k ∈ rest → m ∈ k.lines →
        m.id ∈ (rest.map (fun je => je.lines.map JEALine2.id)).flatten := by
      intro k m hk hm
      rw [List.mem_flatten]
      exact ⟨k.lines.map JEALine2.id, List.mem_map_of_mem _ hk, List.mem_map_of_mem _ hm⟩
    cases hje with
    | head =>
      cases hje' with
      | head => exact nodup_map_inj hj hl hl' hid
      | tail _ hje' =>
        have h1 : l.id ∈ j.lines.map JEALine2.id := List.mem_map_of_mem _ hl
        exact absurd (hid ▸ hInRest hje' hl') (hdisj h1)
    | tail _ hje =>
      cases hje' with
      | head =>
        have h1 : l'.id ∈ j.lines.map JEALine2.id := List.mem_map_of_mem _ hl'
        exact absurd (hid ▸ hInRest hje hl) (hdisj h1)
      | tail _ hje' => exact ih hrest hje hje' hl hl' hid

theorem line_id_unique {led : Ledger} (h : (ledLineIds led).Nodup)
    {je je' : JERec} (hje : je ∈ led.jes) (hje' : je' ∈ led.jes)
    {l l' : JEALine2} (hl : l ∈ je.lines) (hl' : l' ∈ je'.lines)
    (hid : l.id = l'.id) : l = l' :=
  line_id_unique_aux h hje hje' hl hl' hid

theorem findSIById_eq_of_mem {led : Ledger} (hnd : (led.sis.map SIRec.id).Nodup)
    {si : SIRec} (hmem : si ∈ led.sis) : findSIById led si.id = some si := by
  unfold findSIById
  cases hf : led.sis.find? (fun x => x.id == si.id) with
  | none =>
    rw [List.find?_eq_none] at hf
    exact absurd (by simp) (hf si hmem)
  | some si' =>
    have hp := List.find?_some hf
    have hm := List.mem_of_find?_eq_some hf
    have : si' = si := nodup_map_inj hnd hm hmem (by simpa using hp)
    rw [this]

theorem findJEById_eq_of_mem {led : Ledger} (hnd : (led.jes.map JERec.id).Nodup)
    {je : JERec} (hmem : je ∈ led.jes) : findJEById led je.id = some je := by
  unfold findJEById
  cases hf : led.jes.find? (fun x => x.id == je.id) with
  | none =>
    rw [List.find?_eq_none] at hf
    exact absurd (by simp) (hf je hmem)
  | some je' =>
    have hp := List.find?_some hf
    have hm := List.mem_of_find?_eq_some hf
    have : je' = je := nodup_map_inj hnd hm hmem (by simpa using hp)
    rw [this]

theorem updLine_id (i c : ℕ) (l : JEALine2) : (updLine i c l).id = l.id := by
  unfold updLine
  split <;> rfl

theorem setLineRef_jes_map (led : Ledger) (i c : ℕ) :
    (setLineRef led i c).jes
      = led.jes.map (fun je => { je with lines := je.lines.map (updLine i c) }) := rfl

theorem setLineRef_sis (led : Ledger) (i c : ℕ) : (setLineRef led i c).sis = led.sis := rfl

theorem findSIById_setLineRef (led : Ledger) (i c t : ℕ) :
    findSIById (setLineRef led i c) t = findSIById led t := rfl

theorem setLineRef_lineIds (led : Ledger) (i c : ℕ) :
    ledLineIds (setLineRef led i c) = ledLineIds led := by
  unfold ledLineIds setLineRef
  dsimp only
  rw [List.map_map]
  congr 1
  apply List.map_congr_left
  intro je _
  dsimp only [Function.comp]
  rw [List.map_map]
  apply List.map_congr_left
  intro l _
  exact updLine_id i c l

theorem setLineRef_jeIds (led : Ledger) (i c : ℕ) :
    (setLineRef led i c).jes.map JERec.id = led.jes.map JERec.id := by
  rw [setLineRef_jes_map, List.map_map]
  apply List.map_congr_left
  intro je _
  rfl

theorem Inv0_setLineRef {led : Ledger} (i c : ℕ) (h : Inv0 led) :
    Inv0 (setLineRef led i c) := by
  obtain ⟨h1, h2, h3, h4⟩ := h
  refine ⟨?_, ?_, h3, h4⟩
  · rw [setLineRef_lineIds]; exact h1
  · rw [setLineRef_jeIds]; exact h2

theorem countP_map_eq {α β : Type} (f : α → β) (p : β → Bool) (l : List α) :
    (l.map f).countP p = l.countP (fun a => p (f a)) := by
  induction l with
  | nil => rfl
  | cons a t ih => simp [List.countP_cons, ih]

theorem countP_congr_eq {α : Type} {p q : α → Bool} {l : List α}
    (h : ∀ a ∈ l, p a = q a) : l.countP p = l.countP q := by
  induction l with
  | nil => rfl
  | cons a t ih =>
    rw [List.countP_cons, List.countP_cons, h a (List.mem_cons_self _ _),
      ih (fun x hx => h x (List.mem_cons_of_mem _ hx))]

theorem countP_le_of_imp {α : Type} {p q : α → Bool} {l : List α}
    (h : ∀ a ∈ l, p a = true → q a = true) : l.countP p ≤ l.countP q := by
  induction l with
  | nil => exact le_refl _
  | cons a t ih =>
    rw [List.countP_cons, List.countP_cons]
    have ht := ih (fun x hx => h x (List.mem_cons_of_mem _ hx))
    by_cases hp : p a = true
    · rw [if_pos hp, if_pos (h a (List.mem_cons_self _ _) hp)]
      exact Nat.add_le_add ht (le_refl 1)
    · rw [if_neg hp]
      exact le_trans ht (Nat.le_add_right _ _)

theorem updLine_of_ref_some {i c : ℕ} {l : JEALine2} {led : Ledger}
    (hnone : ∀ je ∈ led.jes, ∀ l ∈ je.lines, l.id = i → l.ref = none)
    {je : JERec} (hje : je ∈ led.jes) (hl : l ∈ je.lines)
    (href : l.ref ≠ none) : updLine i c l = l := by
  unfold updLine
  rw [if_neg]
  intro hbeq
  exact href (hnone je hje l hl (by simpa using hbeq))

theorem refsTo_setLineRef_le (led : Ledger) (i c t : ℕ)
    (hnone : ∀ je ∈ led.jes, ∀ l ∈ je.lines, l.id = i → l.ref = none) :
    refsTo led t ≤ refsTo (setLineRef led i c) t := by
  unfold refsTo
  rw [setLineRef_jes_map, List.map_map]
  apply List.sum_le_sum
  intro je hje
  dsimp only [Function.comp]
  rw [countP_map_eq]
  apply countP_le_of_imp
  intro l hl hp
  have href : l.ref ≠ none := by
    intro hn
    rw [hn] at hp
    cases hp
  rw [updLine_of_ref_some hnone hje hl href]
  exact hp

theorem refsTo_setLineRef_eq (led : Ledger) (i c t : ℕ)
    (hnone : ∀ je ∈ led.jes, ∀ l ∈ je.lines, l.id = i → l.ref = none)
    (hct : c ≠ t) :
    refsTo (setLineRef led i c) t = refsTo led t := by
  unfold refsTo
  rw [setLineRef_jes_map, List.map_map]
  congr 1
  apply List.map_congr_left
  intro je hje
  dsimp only [Function.comp]
  rw [countP_map_eq]
  apply countP_congr_eq
  intro l hl
  unfold updLine
  by_cases hid : (l.id == i) = true
  · rw [if_pos hid, hnone je hje l hl (by simpa using hid)]
    show ((some c == some t) : Bool) = ((none == some t) : Bool)
    have h1 : ((some c == some t) : Bool) = false := by
      rw [beq_eq_false_iff_ne]
      intro hcon
      exact hct (Option.some.inj hcon)
    rw [h1]
    rfl
  · rw [if_neg hid]

theorem is_already_setLineRef {led : Ledger} {rpt : String} {t : ℕ} (i c : ℕ)
    (hnone : ∀ je ∈ led.jes, ∀ l ∈ je.lines, l.id = i → l.ref = none)
    (h : is_already_referenced_by_report led rpt t = true) :
    is_already_referenced_by_report (setLineRef led i c) rpt t = true := by
  unfold is_already_referenced_by_report at h ⊢
  rw [findSIById_setLineRef]
  cases hsi : findSIById led t with
  | none => rw [hsi] at h; cases h
  | some si =>
    rw [hsi] at h
    dsimp only at h ⊢
    by_cases hord : si.amazonOrderId = ""
    · rw [if_pos hord] at h
      cases h
    · rw [if_neg hord] at h ⊢
      rw [List.any_eq_true] at h
      obtain ⟨je, hje, hpred⟩ := h
      rw [setLineRef_jes_map, List.any_eq_true]
      refine ⟨{ je with lines := je.lines.map (updLine i c) }, List.mem_map_of_mem _ hje, ?_⟩
      simp only [Bool.and_eq_true] at hpred
      obtain ⟨⟨hds, hcq⟩, hline⟩ := hpred
      rw [List.any_eq_true] at hline
      obtain ⟨l₀, hl₀, hl₀p⟩ := hline
      simp only [Bool.and_eq_true]
      refine ⟨⟨hds, hcq⟩, ?_⟩
      rw [List.any_eq_true]
      refine ⟨updLine i c l₀, List.mem_map_of_mem _ hl₀, ?_⟩
      have href : l₀.ref ≠ none := by
        intro hn
        simp only [Bool.and_eq_true] at hl₀p
        rw [hn] at hl₀p
        cases hl₀p.1
      rw [updLine_of_ref_some hnone hje hl₀ href]
      exact hl₀p

theorem is_already_append {led : Ledger} {rpt : String} {t : ℕ} (cn : SIRec) (n : ℕ)
    (h : is_already_referenced_by_report led rpt t = true) :
    is_already_referenced_by_report
      { led with sis := led.sis ++ [cn], nextId := n } rpt t = true := by
  unfold is_already_referenced_by_report at h ⊢
  cases hsi : findSIById led t with
  | none => rw [hsi] at h; cases h
  | some si =>
    rw [hsi] at h
    have hsi' : findSIById { led with sis := led.sis ++ [cn], nextId := n } t = some si := by
      unfold findSIById at hsi ⊢
      exact find?_append_some _ hsi
    rw [hsi']
    exact h

theorem Inv0_append_fresh {led : Ledger} (cn : SIRec) (hid : cn.id = led.nextId)
    (h : Inv0 led) :
    Inv0 { led with sis := led.sis ++ [cn], nextId := led.nextId + 1 } := by
  obtain ⟨h1, h2, h3, h4⟩ := h
  refine ⟨h1, h2, ?_, ?_⟩
  · show ((led.sis ++ [cn]).map SIRec.id).Nodup
    rw [List.map_append, List.nodup_append]
    refine ⟨h3, List.nodup_singleton _, ?_⟩
    intro a ha
    rw [List.mem_map] at ha
    obtain ⟨si, hsi, hsia⟩ := ha
    simp only [List.map_cons, List.map_nil, List.mem_singleton]
    intro hac
    have : si.id = led.nextId := by rw [hsia, hac, hid]
    exact absurd (this ▸ h4 si hsi) (lt_irrefl _)
  · intro si hsi
    show si.id < led.nextId + 1
    rw [List.mem_append] at hsi
    cases hsi with
    | inl hold => exact Nat.lt_succ_of_lt (h4 si hold)
    | inr hnew =>
      rw [List.mem_singleton] at hnew
      rw [hnew, hid]
      exact Nat.lt_succ_self _

theorem refsTo_append (led : Ledger) (cn : SIRec) (n : ℕ) (t : ℕ) :
    refsTo { led with sis := led.sis ++ [cn], nextId := n } t = refsTo led t := rfl

/-- A submitted first-pass JE of the report, addressable by its name. -/
def SubmittedJE (rpt : String) (jeId : ℕ) (led : Ledger) : Prop :=
  ∃ je ∈ led.jes, findJEById led jeId = some je ∧ je.docstatus = 1 ∧ je.chequeNo = rpt

theorem find?_map_pres {α β : Type} (f : α → β) (p : α → Bool) (q : β → Bool) (l : List α)
    (hpq : ∀ a, q (f a) = p a) : (l.map f).find? q = (l.find? p).map f := by
  induction l with
  | nil => rfl
  | cons a t ih =>
    rw [List.map_cons]
    by_cases hpa : p a = true
    · rw [List.find?_cons_of_pos _ (by rw [hpq]; exact hpa), List.find?_cons_of_pos _ hpa]
      rfl
    · rw [List.find?_cons_of_neg _ (by rw [hpq]; exact hpa), List.find?_cons_of_neg _ hpa]
      exact ih

theorem findJEById_setLineRef (led : Ledger) (i c jeId : ℕ) :
    findJEById (setLineRef led i c) jeId
      = (findJEById led jeId).map (fun je => { je with lines := je.lines.map (updLine i c) }) := by
  unfold findJEById
  rw [setLineRef_jes_map]
  exact find?_map_pres _ _ _ _ (fun a => rfl)

theorem SubmittedJE_setLineRef {rpt : String} {jeId : ℕ} {led : Ledger} (i c : ℕ)
    (h : SubmittedJE rpt jeId led) : SubmittedJE rpt jeId (setLineRef led i c) := by
  obtain ⟨je, hmem, hfind, hds, hcq⟩ := h
  refine ⟨{ je with lines := je.lines.map (updLine i c) }, ?_, ?_, hds, hcq⟩
  · rw [setLineRef_jes_map]
    exact List.mem_map_of_mem _ hmem
  · rw [findJEById_setLineRef, hfind]
    rfl

theorem SubmittedJE_append {rpt : String} {jeId : ℕ} {led : Ledger} (cn : SIRec) (n : ℕ)
    (h : SubmittedJE rpt jeId led) :
    SubmittedJE rpt jeId { led with sis := led.sis ++ [cn], nextId := n } := h

/-- The transition property every database operation of the allocation pass
satisfies relative to a report: well-formedness is kept, visibility of
`is_already_referenced_by_report` never fades, reference counts never shrink,
targets already visible gain no references, and every target whose count
grows is visible afterwards. -/
def Good (rpt : String) (a b : Ledger) : Prop :=
  Inv0 b
  ∧ (∀ t, is_already_referenced_by_report a rpt t = true →
      is_already_referenced_by_report b rpt t = true)
  ∧ (∀ t, refsTo a t ≤ refsTo b t)
  ∧ (∀ t, is_already_referenced_by_report a rpt t = true → refsTo b t = refsTo a t)
  ∧ (∀ t, refsTo a t < refsTo b t → is_already_referenced_by_report b rpt t = true)

theorem Good_refl (rpt : String) (a : Ledger) (h : Inv0 a) : Good rpt a a :=
  ⟨h, fun _ ht => ht, fun _ => le_refl _, fun _ _ => rfl, fun _ hlt => absurd hlt (lt_irrefl _)⟩

theorem Good_trans {rpt : String} {a b c : Ledger}
    (h1 : Good rpt a b) (h2 : Good rpt b c) : Good rpt a c := by
  obtain ⟨hi1, hm1, hle1, hp1, hn1⟩ := h1
  obtain ⟨hi2, hm2, hle2, hp2, hn2⟩ := h2
  refine ⟨hi2, fun t ht => hm2 t (hm1 t ht), fun t => le_trans (hle1 t) (hle2 t), ?_, ?_⟩
  · intro t ht
    rw [hp2 t (hm1 t ht), hp1 t ht]
  · intro t hlt
    by_cases hbc : refsTo b t < refsTo c t
    · exact hn2 t hbc
    · push_neg at hbc
      exact hm2 t (hn1 t (lt_of_lt_of_le hlt hbc))

theorem unref_debit_line_spec {led : Ledger} {jeId : ℕ} {o : String} {lineId : ℕ}
    (h : unref_debit_line led jeId o = some lineId) :
    ∃ l ∈ jeLines led jeId,
      l.id = lineId ∧ l.ref = none ∧ l.amazonOrderId = o ∧ 0 < l.debitInAcct := by
  unfold unref_debit_line at h
  cases hf : (jeLines led jeId).find?
      (fun l => l.amazonOrderId = o && decide (0 < l.debitInAcct) && l.ref == none) with
  | none => rw [hf] at h; cases h
  | some l =>
    rw [hf] at h
    have hp := List.find?_some hf
    have hm := List.mem_of_find?_eq_some hf
    simp only [Bool.and_eq_true, decide_eq_true_eq, beq_iff_eq] at hp
    refine ⟨l, hm, ?_, hp.2, hp.1.1, hp.1.2⟩
    injection h with h1

theorem unref_credit_line_spec {led : Ledger} {jeId : ℕ} {o : String} {lineId : ℕ}
    (h : unref_credit_line led jeId o = some lineId) :
    ∃ l ∈ jeLines led jeId,
      l.id = lineId ∧ l.ref = none ∧ l.amazonOrderId = o ∧ 0 < l.creditInAcct := by
  unfold unref_credit_line at h
  cases hf : (jeLines led jeId).find?
      (fun l => l.amazonOrderId = o && decide (0 < l.creditInAcct) && l.ref == none) with
  | none => rw [hf] at h; cases h
  | some l =>
    rw [hf] at h
    have hp := List.find?_some hf
    have hm := List.mem_of_find?_eq_some hf
    simp only [Bool.and_eq_true, decide_eq_true_eq, beq_iff_eq] at hp
    refine ⟨l, hm, ?_, hp.2, hp.1.1, hp.1.2⟩
    injection h with h1

theorem latestBy_foldl_mem :
    ∀ (cands : List SIRec) (acc : Option SIRec) (si : SIRec),
    cands.foldl (fun acc si =>
      match acc with
      | none => some si
      | some best => if best.postingDate < si.postingDate then some si else some best)
        acc = some si →
    si ∈ cands ∨ acc = some si := by
  intro cands
  induction cands with
  | nil => intro acc si h; exact Or.inr h
  | cons x t ih =>
    intro acc si h
    rw [List.foldl_cons] at h
    rcases ih _ si h with hmem | hacc
    · exact Or.inl (List.mem_cons_of_mem _ hmem)
    · cases acc with
      | none =>
        injection hacc with h1
        exact Or.inl (h1 ▸ List.mem_cons_self _ _)
      | some best =>
        dsimp only at hacc
        by_cases hpd : best.postingDate < x.postingDate
        · rw [if_pos hpd] at hacc
          injection hacc with h1
          exact Or.inl (h1 ▸ List.mem_cons_self _ _)
        · rw [if_neg hpd] at hacc
          exact Or.inr hacc

theorem get_sales_invoice_spec {led : Ledger} {o : String} {siId : ℕ}
    (h : get_sales_invoice led o = some siId) :
    ∃ si ∈ led.sis, si.id = siId ∧ si.amazonOrderId = o
      ∧ si.docstatus = 1 ∧ si.isReturn = false := by
  unfold get_sales_invoice at h
  cases hf : latestBy (led.sis.filter (fun si =>
      si.amazonOrderId = o && si.docstatus == 1 && !si.isReturn)) with
  | none => rw [hf] at h; cases h
  | some si =>
    rw [hf] at h
    unfold latestBy at hf
    rcases latestBy_foldl_mem _ none si hf with hmem | hacc
    · rw [List.mem_filter] at hmem
      obtain ⟨hsis, hprops⟩ := hmem
      simp only [Bool.and_eq_true, decide_eq_true_eq, beq_iff_eq, Bool.not_eq_true'] at hprops
      refine ⟨si, hsis, ?_, hprops.1.1, hprops.1.2, hprops.2⟩
      injection h with h1
    · cases hacc

theorem mem_insertSorted {si x : SIRec} :
    ∀ {l : List SIRec}, x ∈ insertSorted si l → x = si ∨ x ∈ l := by
  intro l
  induction l with
  | nil =>
    intro h
    unfold insertSorted at h
    rw [List.mem_singleton] at h
    exact Or.inl h
  | cons a t ih =>
    intro h
    unfold insertSorted at h
    split at h
    · rw [List.mem_cons] at h
      rcases h with h | h
      · exact Or.inl h
      · exact Or.inr h
    · rw [List.mem_cons] at h
      rcases h with h | h
      · exact Or.inr (h ▸ List.mem_cons_self _ _)
      · rcases ih h with h1 | h1
        · exact Or.inl h1
        · exact Or.inr (List.mem_cons_of_mem _ h1)

theorem mem_sortCNs_foldl {x : SIRec} :
    ∀ {l : List SIRec} {acc : List SIRec},
    x ∈ l.foldl (fun acc si => insertSorted si acc) acc → x ∈ l ∨ x ∈ acc := by
  intro l
  induction l with
  | nil => intro acc h; exact Or.inr h
  | cons a t ih =>
    intro acc h
    rw [List.foldl_cons] at h
    rcases ih h with h1 | h1
    · exact Or.inl (List.mem_cons_of_mem _ h1)
    · rcases mem_insertSorted h1 with h2 | h2
      · exact Or.inl (h2 ▸ List.mem_cons_self _ _)
      · exact Or.inr h2

theorem get_open_cns_spec {led : Ledger} {o : String} {cnId : ℕ}
    (h : cnId ∈ get_open_credit_notes_for_order led o) :
    ∃ si ∈ led.sis, si.id = cnId ∧ si.amazonOrderId = o := by
  unfold get_open_credit_notes_for_order at h
  rw [List.mem_map] at h
  obtain ⟨si, hsi, hsid⟩ := h
  unfold sortCNs at hsi
  rcases mem_sortCNs_foldl hsi with h1 | h1
  · rw [List.mem_filter] at h1
    obtain ⟨hsis, hprops⟩ := h1
    simp only [Bool.and_eq_true, decide_eq_true_eq] at hprops
    exact ⟨si, hsis, hsid, hprops.1.1.1⟩
  · cases h1

theorem SubmittedJE_of_findJE {led : Ledger} {rpt : String} {jeId : ℕ}
    (hnd : (led.jes.map JERec.id).Nodup)
    (h : findJE led rpt = some jeId) : SubmittedJE rpt jeId led := by
  unfold findJE at h
  cases hf : led.jes.find? (fun je => je.chequeNo = rpt && je.docstatus == 1) with
  | none => rw [hf] at h; cases h
  | some je =>
    rw [hf] at h
    injection h with hid
    have hmem := List.mem_of_find?_eq_some hf
    have hpred := List.find?_some hf
    simp only [Bool.and_eq_true, decide_eq_true_eq, beq_iff_eq] at hpred
    exact ⟨je, hmem, hid ▸ findJEById_eq_of_mem hnd hmem, hpred.2, hpred.1⟩

theorem Good_setLineRef_alloc (rpt : String) (jeId : ℕ) (led : Ledger) (lineId c : ℕ)
    (hInv : Inv0 led) (hSub : SubmittedJE rpt jeId led)
    (hline : ∃ l ∈ jeLines led jeId,
        l.id = lineId ∧ l.ref = none ∧ l.amazonOrderId ≠ "" ∧
        ∃ si, findSIById led c = some si ∧ si.amazonOrderId = l.amazonOrderId)
    (hguard : is_already_referenced_by_report led rpt c = false) :
    Good rpt led (setLineRef led lineId c) := by
  obtain ⟨je₀, hje₀, hfind₀, hds₀, hcq₀⟩ := hSub
  obtain ⟨l, hlJ, hlid, hlref, hlo, si, hsic, hsio⟩ := hline
  have hlmem : l ∈ je₀.lines := by
    unfold jeLines at hlJ
    rw [hfind₀] at hlJ
    exact hlJ
  have hnone : ∀ je ∈ led.jes, ∀ l' ∈ je.lines, l'.id = lineId → l'.ref = none := by
    intro je hje l' hl' hid'
    have : l' = l := line_id_unique hInv.1 hje hje₀ hl' hlmem (hid'.trans hlid.symm)
    rw [this]
    exact hlref
  refine ⟨Inv0_setLineRef lineId c hInv, ?_, ?_, ?_, ?_⟩
  · intro t ht
    exact is_already_setLineRef lineId c hnone ht
  · intro t
    exact refsTo_setLineRef_le led lineId c t hnone
  · intro t ht
    have hct : c ≠ t := by
      intro hc
      rw [hc] at hguard
      rw [ht] at hguard
      cases hguard
    exact refsTo_setLineRef_eq led lineId c t hnone hct
  · intro t hlt
    have hct : c = t := by
      by_contra hne
      rw [refsTo_setLineRef_eq led lineId c t hnone hne] at hlt
      exact absurd hlt (lt_irrefl _)
    subst hct
    unfold is_already_referenced_by_report
    rw [findSIById_setLineRef, hsic]
    dsimp only
    rw [if_neg (by rw [hsio]; exact hlo)]
    rw [setLineRef_jes_map, List.any_eq_true]
    refine ⟨{ je₀ with lines := je₀.lines.map (updLine lineId c) },
      List.mem_map_of_mem _ hje₀, ?_⟩
    simp only [Bool.and_eq_true]
    refine ⟨⟨by simp [hds₀], by rw [hcq₀]; exact startsWithChars_refl _⟩, ?_⟩
    rw [List.any_eq_true]
    refine ⟨updLine lineId c l, List.mem_map_of_mem _ hlmem, ?_⟩
    have hupd : updLine lineId c l = { l with ref := some c } := by
      unfold updLine
      rw [if_pos (by simp [hlid])]
    rw [hupd]
    simp only [Bool.and_eq_true, beq_iff_eq, decide_eq_true_eq]
    exact ⟨trivial, hsio.symm⟩

theorem create_cn_effects (oracle : ℕ → List SRow → Option ℚ) (led : Ledger)
    (rptId : String) (siId : ℕ) (postDt : ℕ) (o : String) (rows : List SRow) :
    ((create_credit_note_for_refund oracle led rptId siId postDt o rows).1 = led
      ∨ ∃ cn : SIRec, cn.id = led.nextId ∧ cn.amazonOrderId = o ∧
          (create_credit_note_for_refund oracle led rptId siId postDt o rows).1
            = { led with sis := led.sis ++ [cn], nextId := led.nextId + 1 })
    ∧ ∀ cnId : ℕ,
      (create_credit_note_for_refund oracle led rptId siId postDt o rows).2 = some cnId →
        ∃ si ∈ (create_credit_note_for_refund oracle led rptId siId postDt o rows).1.sis,
          si.id = cnId ∧ si.amazonOrderId = o := by
  unfold create_credit_note_for_refund
  cases hsi : findSIById led siId with
  | none => exact ⟨Or.inl rfl, fun cnId h => by cases h⟩
  | some si =>
    dsimp only
    by_cases hret : si.isReturn = true
    · rw [if_pos hret]
      exact ⟨Or.inl rfl, fun cnId h => by cases h⟩
    rw [if_neg hret]
    by_cases hempty : (rows.filter (fun r => pyLower r.transactionType = "refund")).isEmpty = true
    · rw [if_pos hempty]
      exact ⟨Or.inl rfl, fun cnId h => by cases h⟩
    rw [if_neg hempty]
    by_cases hany : led.sis.any (cnKey siId o si.company rptId) = true
    · rw [if_pos hany]
      refine ⟨Or.inl rfl, ?_⟩
      intro cnId h
      cases hfind : led.sis.find? (cnKey siId o si.company rptId) with
      | none => rw [hfind] at h; cases h
      | some cn =>
        rw [hfind] at h
        have hmem := List.mem_of_find?_eq_some hfind
        have hp := List.find?_some hfind
        unfold cnKey at hp
        simp only [Bool.and_eq_true, decide_eq_true_eq, beq_iff_eq] at hp
        injection h with h1
        exact ⟨cn, hmem, h1, hp.1.1.1.1.2⟩
    rw [if_neg hany]
    cases horacle : oracle led.nextId
        (rows.filter (fun r => pyLower r.transactionType = "refund")) with
    | none => exact ⟨Or.inl rfl, fun cnId h => by cases h⟩
    | some outst =>
      dsimp only
      refine ⟨Or.inr ⟨mkFreshCN led.nextId o outst siId rptId si.company postDt,
        rfl, rfl, rfl⟩, ?_⟩
      intro cnId h
      injection h with h1
      exact ⟨mkFreshCN led.nextId o outst siId rptId si.company postDt,
        List.mem_append_right _ (List.mem_singleton_self _), h1, rfl⟩

theorem create_cn_good (oracle : ℕ → List SRow → Option ℚ) (led : Ledger)
    (rptId : String) (siId : ℕ) (postDt : ℕ) (o : String) (rows : List SRow)
    (hInv : Inv0 led) (rpt : String) :
    Good rpt led (create_credit_note_for_refund oracle led rptId siId postDt o rows).1 := by
  rcases (create_cn_effects oracle led rptId siId postDt o rows).1 with heq | ⟨cn, hcnid, _, heq⟩
  · rw [heq]
    exact Good_refl _ _ hInv
  · rw [heq]
    refine ⟨Inv0_append_fresh cn hcnid hInv, ?_, ?_, ?_, ?_⟩
    · intro t ht
      exact is_already_append cn _ ht
    · intro t
      rw [refsTo_append]
    · intro t _
      rw [refsTo_append]
    · intro t hlt
      rw [refsTo_append] at hlt
      exact absurd hlt (lt_irrefl _)

theorem create_cn_jes (oracle : ℕ → List SRow → Option ℚ) (led : Ledger)
    (rptId : String) (siId : ℕ) (postDt : ℕ) (o : String) (rows : List SRow) :
    (create_credit_note_for_refund oracle led rptId siId postDt o rows).1.jes = led.jes := by
  rcases (create_cn_effects oracle led rptId siId postDt o rows).1 with heq | ⟨cn, _, _, heq⟩
  · rw [heq]
  · rw [heq]

theorem SubmittedJE_jes_eq {rpt : String} {jeId : ℕ} {a b : Ledger} (h : b.jes = a.jes)
    (hs : SubmittedJE rpt jeId a) : SubmittedJE rpt jeId b := by
  obtain ⟨je, hm, hf, hd, hc⟩ := hs
  refine ⟨je, ?_, ?_, hd, hc⟩
  · rw [h]
    exact hm
  · unfold findJEById at hf ⊢
    rw [h]
    exact hf

theorem sales_step_good (rpt : String) (jeId : ℕ) (led : Ledger) (e : String × ℚ)
    (hInv : Inv0 led) (hSub : SubmittedJE rpt jeId led) (ho : e.1 ≠ "") :
    Good rpt led (sales_step rpt jeId led e)
    ∧ SubmittedJE rpt jeId (sales_step rpt jeId led e) := by
  unfold sales_step
  by_cases h1 : |e.2| < mkRat 1 100
  · rw [if_pos h1]
    exact ⟨Good_refl _ _ hInv, hSub⟩
  rw [if_neg h1]
  by_cases h2 : e.2 - salesApplied led jeId e.1 < mkRat 1 100
  · rw [if_pos h2]
    exact ⟨Good_refl _ _ hInv, hSub⟩
  rw [if_neg h2]
  cases hsi : get_sales_invoice led e.1 with
  | none => exact ⟨Good_refl _ _ hInv, hSub⟩
  | some siId =>
    dsimp only
    by_cases h3 : is_already_referenced_by_report led rpt siId = true
    · rw [if_pos h3]
      exact ⟨Good_refl _ _ hInv, hSub⟩
    rw [if_neg h3]
    by_cases h4 : min (e.2 - salesApplied led jeId e.1) (outstandingOf led siId) < mkRat 1 100
    · rw [if_pos h4]
      exact ⟨Good_refl _ _ hInv, hSub⟩
    rw [if_neg h4]
    cases hul : unref_credit_line led jeId e.1 with
    | none => exact ⟨Good_refl _ _ hInv, hSub⟩
    | some lineId =>
      dsimp only
      obtain ⟨si, hsimem, hsid, hsio, _, _⟩ := get_sales_invoice_spec hsi
      obtain ⟨l, hlmem, hlid, hlref, hlo, _⟩ := unref_credit_line_spec hul
      have hfind : findSIById led siId = some si := by
        rw [← hsid]
        exact findSIById_eq_of_mem hInv.2.2.1 hsimem
      refine ⟨Good_setLineRef_alloc rpt jeId led lineId siId hInv hSub
        ⟨l, hlmem, hlid, hlref, ?_, si, hfind, ?_⟩
        (by rw [Bool.eq_false_iff]; exact h3), SubmittedJE_setLineRef _ _ hSub⟩
      · rw [hlo]
        exact ho
      · rw [hsio, hlo]

theorem residual_loop_good (rpt : String) (jeId : ℕ) (o : String) (ho : o ≠ "") :
    ∀ (cns : List ℕ) (led : Ledger) (rta : ℚ),
    Inv0 led → SubmittedJE rpt jeId led →
    (∀ cn ∈ cns, ∃ si ∈ led.sis, si.id = cn ∧ si.amazonOrderId = o) →
    Good rpt led (residual_loop rpt jeId o led rta cns)
    ∧ SubmittedJE rpt jeId (residual_loop rpt jeId o led rta cns) := by
  intro cns
  induction cns with
  | nil =>
    intro led rta hInv hSub _
    exact ⟨Good_refl _ _ hInv, hSub⟩
  | cons cn rest ih =>
    intro led rta hInv hSub hcns
    simp only [residual_loop]
    by_cases h1 : is_already_referenced_by_report led rpt cn = true
    · rw [if_pos h1]
      exact ih led rta hInv hSub (fun c hc => hcns c (List.mem_cons_of_mem _ hc))
    rw [if_neg h1]
    by_cases h2 : min rta |outstandingOf led cn| < mkRat 1 100
    · rw [if_pos h2]
      exact ih led rta hInv hSub (fun c hc => hcns c (List.mem_cons_of_mem _ hc))
    rw [if_neg h2]
    cases hul : unref_debit_line led jeId o with
    | none =>
      dsimp only
      exact ih led rta hInv hSub (fun c hc => hcns c (List.mem_cons_of_mem _ hc))
    | some lineId =>
      dsimp only
      obtain ⟨si, hsimem, hsid, hsio⟩ := hcns cn (List.mem_cons_self _ _)
      have hfind : findSIById led cn = some si := by
        rw [← hsid]
        exact findSIById_eq_of_mem hInv.2.2.1 hsimem
      obtain ⟨l, hlmem, hlid, hlref, hlo, _⟩ := unref_debit_line_spec hul
      have hgood : Good rpt led (setLineRef led lineId cn) :=
        Good_setLineRef_alloc rpt jeId led lineId cn hInv hSub
          ⟨l, hlmem, hlid, hlref, by rw [hlo]; exact ho, si, hfind, by rw [hsio, hlo]⟩
          (by rw [Bool.eq_false_iff]; exact h1)
      by_cases h3 : rta - min rta |outstandingOf led cn| < mkRat 1 100
      · rw [if_pos h3]
        exact ⟨hgood, SubmittedJE_setLineRef _ _ hSub⟩
      · rw [if_neg h3]
        have hrec := ih (setLineRef led lineId cn) (rta - min rta |outstandingOf led cn|)
          hgood.1 (SubmittedJE_setLineRef _ _ hSub)
          (fun c hc => by
            rw [setLineRef_sis]
            exact hcns c (List.mem_cons_of_mem _ hc))
        exact ⟨Good_trans hgood hrec.1, hrec.2⟩

theorem new_cn_block_good (oracle : ℕ → List SRow → Option ℚ) (rpt : String) (jeId : ℕ)
    (postDt : ℕ) (o : String) (refundRows : List SRow) (led : Ledger) (rta : ℚ)
    (hInv : Inv0 led) (hSub : SubmittedJE rpt jeId led) (ho : o ≠ "") :
    Good rpt led (new_cn_block oracle rpt jeId postDt o refundRows led rta).1
    ∧ SubmittedJE rpt jeId (new_cn_block oracle rpt jeId postDt o refundRows led rta).1 := by
  unfold new_cn_block
  cases hsi : get_sales_invoice led o with
  | none => exact ⟨Good_refl _ _ hInv, hSub⟩
  | some siId =>
    dsimp only
    by_cases hempty : refundRows.isEmpty = true
    · rw [if_pos hempty]
      exact ⟨Good_refl _ _ hInv, hSub⟩
    rw [if_neg hempty]
    cases hc : create_credit_note_for_refund oracle led rpt siId postDt o refundRows with
    | mk led₁ res =>
      have hgood₁ : Good rpt led led₁ := by
        have hg := create_cn_good oracle led rpt siId postDt o refundRows hInv rpt
        rw [hc] at hg
        exact hg
      have hSub₁ : SubmittedJE rpt jeId led₁ := by
        have hjes := create_cn_jes oracle led rpt siId postDt o refundRows
        rw [hc] at hjes
        exact SubmittedJE_jes_eq hjes hSub
      cases res with
      | none => exact ⟨hgood₁, hSub₁⟩
      | some cnId =>
        dsimp only
        by_cases h3 : is_already_referenced_by_report led₁ rpt cnId = true
        · rw [if_pos h3]
          exact ⟨hgood₁, hSub₁⟩
        rw [if_neg h3]
        by_cases h4 : mkRat 1 100 < min rta |outstandingOf led₁ cnId|
        case neg =>
          rw [if_neg h4]
          exact ⟨hgood₁, hSub₁⟩
        rw [if_pos h4]
        cases hul : unref_debit_line led₁ jeId o with
        | none => exact ⟨hgood₁, hSub₁⟩
        | some lineId =>
          dsimp only
          have hres : ∃ si ∈ led₁.sis, si.id = cnId ∧ si.amazonOrderId = o := by
            have he := (create_cn_effects oracle led rpt siId postDt o refundRows).2 cnId
            rw [hc] at he
            exact he rfl
          obtain ⟨si, hsimem, hsid, hsio⟩ := hres
          have hfind : findSIById led₁ cnId = some si := by
            rw [← hsid]
            exact findSIById_eq_of_mem hgood₁.1.2.2.1 hsimem
          obtain ⟨l, hlmem, hlid, hlref, hlo, _⟩ := unref_debit_line_spec hul
          have hgood₂ : Good rpt led₁ (setLineRef led₁ lineId cnId) :=
            Good_setLineRef_alloc rpt jeId led₁ lineId cnId hgood₁.1 hSub₁
              ⟨l, hlmem, hlid, hlref, by rw [hlo]; exact ho, si, hfind, by rw [hsio, hlo]⟩
              (by rw [Bool.eq_false_iff]; exact h3)
          exact ⟨Good_trans hgood₁ hgood₂, SubmittedJE_setLineRef _ _ hSub₁⟩

theorem refund_step_good (oracle : ℕ → List SRow → Option ℚ) (rpt : String) (jeId : ℕ)
    (postDt : ℕ) (groups : List (String × List SRow)) (led : Ledger) (e : String × ℚ)
    (hInv : Inv0 led) (hSub : SubmittedJE rpt jeId led) (ho : e.1 ≠ "") :
    Good rpt led (refund_step oracle rpt jeId postDt groups led e)
    ∧ SubmittedJE rpt jeId (refund_step oracle rpt jeId postDt groups led e) := by
  unfold refund_step
  by_cases h1 : |e.2| < mkRat 1 100
  · rw [if_pos h1]
    exact ⟨Good_refl _ _ hInv, hSub⟩
  rw [if_neg h1]
  by_cases h2 : e.2 - refundApplied led jeId e.1 < mkRat 1 100
  · rw [if_pos h2]
    exact ⟨Good_refl _ _ hInv, hSub⟩
  rw [if_neg h2]
  cases hb : new_cn_block oracle rpt jeId postDt e.1
      (((alookup e.1 groups).getD []).filter (fun r => REFUND_TYPES.contains (rowTType r)))
      led (e.2 - refundApplied led jeId e.1) with
  | mk led₁ p =>
    have hblock := new_cn_block_good oracle rpt jeId postDt e.1
      (((alookup e.1 groups).getD []).filter (fun r => REFUND_TYPES.contains (rowTType r)))
      led (e.2 - refundApplied led jeId e.1) hInv hSub ho
    rw [hb] at hblock
    cases p with
    | mk rta₁ stop =>
      dsimp only at hblock ⊢
      by_cases hstop : stop = true
      · rw [if_pos hstop]
        exact hblock
      rw [if_neg hstop]
      have hres := residual_loop_good rpt jeId e.1 ho
        (get_open_credit_notes_for_order led₁ e.1) led₁ rta₁ hblock.1.1 hblock.2
        (fun cn hc => get_open_cns_spec hc)
      exact ⟨Good_trans hblock.1 hres.1, hres.2⟩

theorem foldl_good {β : Type} (rpt : String) (jeId : ℕ) (step : Ledger → β → Ledger)
    (P : β → Prop)
    (hstep : ∀ (cur : Ledger) (b : β), Inv0 cur → SubmittedJE rpt jeId cur → P b →
      Good rpt cur (step cur b) ∧ SubmittedJE rpt jeId (step cur b)) :
    ∀ (l : List β) (a : Ledger), Inv0 a → SubmittedJE rpt jeId a → (∀ b ∈ l, P b) →
      Good rpt a (l.foldl step a) ∧ SubmittedJE rpt jeId (l.foldl step a) := by
  intro l
  induction l with
  | nil =>
    intro a h1 h2 _
    exact ⟨Good_refl _ _ h1, h2⟩
  | cons b t ih =>
    intro a h1 h2 hP
    rw [List.foldl_cons]
    have hs := hstep a b h1 h2 (hP b (List.mem_cons_self _ _))
    have hrec := ih (step a b) hs.1.1 hs.2 (fun x hx => hP x (List.mem_cons_of_mem _ hx))
    exact ⟨Good_trans hs.1 hrec.1, hrec.2⟩

set_option maxHeartbeats 1600000 in
theorem allocate_late_good (oracle : ℕ → List SRow → Option ℚ) (rptId : String)
    (groups : List (String × List SRow)) (postDt : ℕ) (led : Ledger)
    (hInv : Inv0 led) (hgk : ∀ g ∈ groups, g.1 ≠ "") :
    Good rptId led (allocate_late_documents_for_settlement oracle rptId groups postDt led) := by
  unfold allocate_late_documents_for_settlement
  cases hje : findJE led rptId with
  | none => exact Good_refl _ _ hInv
  | some jeId =>
    dsimp only
    have hSub := SubmittedJE_of_findJE hInv.2.1 hje
    have hkeys1 : ∀ e ∈ groups.filterMap (fun og =>
        if |salesSumOf og.2| ≥ mkRat 1 100 then some (og.1, salesSumOf og.2) else none),
        e.1 ≠ "" := by
      intro e he
      rw [List.mem_filterMap] at he
      obtain ⟨og, hog, heq⟩ := he
      by_cases hc : |salesSumOf og.2| ≥ mkRat 1 100
      · rw [if_pos hc] at heq
        injection heq with h1
        rw [← h1]
        exact hgk og hog
      · rw [if_neg hc] at heq
        cases heq
    have hkeys2 : ∀ e ∈ groups.filterMap (fun og =>
        if |refundSumOf og.2| ≥ mkRat 1 100 then some (og.1, refundSumOf og.2) else none),
        e.1 ≠ "" := by
      intro e he
      rw [List.mem_filterMap] at he
      obtain ⟨og, hog, heq⟩ := he
      by_cases hc : |refundSumOf og.2| ≥ mkRat 1 100
      · rw [if_pos hc] at heq
        injection heq with h1
        rw [← h1]
        exact hgk og hog
      · rw [if_neg hc] at heq
        cases heq
    generalize hSL : groups.filterMap (fun og =>
        if |salesSumOf og.2| ≥ mkRat 1 100 then some (og.1, salesSumOf og.2) else none) = sl
    generalize hRL : groups.filterMap (fun og =>
        if |refundSumOf og.2| ≥ mkRat 1 100 then some (og.1, refundSumOf og.2) else none) = rl
    rw [hSL] at hkeys1
    rw [hRL] at hkeys2
    have hs := foldl_good rptId jeId (sales_step rptId jeId) (fun e => e.1 ≠ "")
      (fun cur b hI hS hP => sales_step_good rptId jeId cur b hI hS hP)
      sl led hInv hSub hkeys1
    have hr := foldl_good rptId jeId (refund_step oracle rptId jeId postDt groups)
      (fun e => e.1 ≠ "")
      (fun cur b hI hS hP => refund_step_good oracle rptId jeId postDt groups cur b hI hS hP)
      rl _ hs.1.1 hs.2 hkeys2
    exact Good_trans hs.1 hr.1

/--
C3 (amended): the late-allocation pass is idempotent at the level of targets
and credit notes, though not of whole states (see the counterexample).  For a
well-formed database whose order groups carry nonempty order ids: (1) a target
already visible to `is_already_referenced_by_report` stays visible and gains
no reference; (2) every target whose reference count grows during a run is
visible to `is_already_referenced_by_report` afterwards; (3) hence a second
run never adds a reference to any target allocated by the first; and (4)
`create_credit_note_for_refund` leaves the database unchanged whenever a
credit note with the same invoice, order, company and settlement report
already exists.
-/
theorem allocate_late_no_duplicate_allocations (oracle : ℕ → List SRow → Option ℚ)
    (rptId : String) (groups : List (String × List SRow)) (postDt : ℕ) (led : Ledger)
    (hInv : Inv0 led) (hgk : ∀ g ∈ groups, g.1 ≠ "") :
    (∀ t : ℕ, is_already_referenced_by_report led rptId t = true →
        is_already_referenced_by_report
          (allocate_late_documents_for_settlement oracle rptId groups postDt led) rptId t = true
        ∧ refsTo (allocate_late_documents_for_settlement oracle rptId groups postDt led) t
          = refsTo led t)
    ∧ (∀ t : ℕ,
        refsTo led t
          < refsTo (allocate_late_documents_for_settlement oracle rptId groups postDt led) t →
        is_already_referenced_by_report
          (allocate_late_documents_for_settlement oracle rptId groups postDt led) rptId t
          = true)
    ∧ (∀ t : ℕ,
        refsTo led t
          < refsTo (allocate_late_documents_for_settlement oracle rptId groups postDt led) t →
        refsTo (allocate_late_documents_for_settlement oracle rptId groups postDt
            (allocate_late_documents_for_settlement oracle rptId groups postDt led)) t
          = refsTo (allocate_late_documents_for_settlement oracle rptId groups postDt led) t)
    ∧ (∀ (led₀ : Ledger) (siId : ℕ) (o : String) (rows : List SRow) (si : SIRec),
        findSIById led₀ siId = some si →
        led₀.sis.any (cnKey siId o si.company rptId) = true →
        (create_credit_note_for_refund oracle led₀ rptId siId postDt o rows).1 = led₀) := by
  have hg1 := allocate_late_good oracle rptId groups postDt led hInv hgk
  have hg2 := allocate_late_good oracle rptId groups postDt
    (allocate_late_documents_for_settlement oracle rptId groups postDt led) hg1.1 hgk
  refine ⟨?_, ?_, ?_, ?_⟩
  · intro t ht
    exact ⟨hg1.2.1 t ht, hg1.2.2.2.1 t ht⟩
  · intro t hlt
    exact hg1.2.2.2.2 t hlt
  · intro t hlt
    exact hg2.2.2.2.1 t (hg1.2.2.2.2 t hlt)
  · intro led₀ siId o rows si hfind hany
    unfold create_credit_note_for_refund
    rw [hfind]
    dsimp only
    by_cases hret : si.isReturn = true
    · rw [if_pos hret]
    · rw [if_neg hret]
      by_cases hempty :
          (rows.filter (fun r => pyLower r.transactionType = "refund")).isEmpty = true
      · rw [if_pos hempty]
      · rw [if_neg hempty, if_pos hany]

theorem allocate_late_no_duplicate_allocations_witness :
    (∀ t : ℕ, is_already_referenced_by_report cexLedger "RPT" t = true →
        is_already_referenced_by_report
          (allocate_late_documents_for_settlement cexOracle "RPT" cexGroups 7 cexLedger)
          "RPT" t = true
        ∧ refsTo (allocate_late_documents_for_settlement cexOracle "RPT" cexGroups 7 cexLedger) t
          = refsTo cexLedger t)
    ∧ (∀ t : ℕ,
        refsTo cexLedger t
          < refsTo (allocate_late_documents_for_settlement cexOracle "RPT" cexGroups 7
              cexLedger) t →
        is_already_referenced_by_report
          (allocate_late_documents_for_settlement cexOracle "RPT" cexGroups 7 cexLedger)
          "RPT" t = true)
    ∧ (∀ t : ℕ,
        refsTo cexLedger t
          < refsTo (allocate_late_documents_for_settlement cexOracle "RPT" cexGroups 7
              cexLedger) t →
        refsTo (allocate_late_documents_for_settlement cexOracle "RPT" cexGroups 7
            (allocate_late_documents_for_settlement cexOracle "RPT" cexGroups 7 cexLedger)) t
          = refsTo (allocate_late_documents_for_settlement cexOracle "RPT" cexGroups 7
              cexLedger) t)
    ∧ (∀ (led₀ : Ledger) (siId : ℕ) (o : String) (rows : List SRow) (si : SIRec),
        findSIById led₀ siId = some si →
        led₀.sis.any (cnKey siId o si.company "RPT") = true →
        (create_credit_note_for_refund cexOracle led₀ "RPT" siId 7 o rows).1 = led₀) :=
  allocate_late_no_duplicate_allocations cexOracle "RPT" cexGroups 7 cexLedger
    (by unfold Inv0; with_unfolding_all decide) (by with_unfolding_all decide)

end AmazonSettlement
